import Mathlib

set_option maxHeartbeats 1000000

/-!
Verification development for the eqvalet log-watcher, covering the three
source modules `EverquestLogFile.py`, `ParseTarget.py` and `PetTracker.py`.

Lines are modelled as `List Char`.  The handful of fixed regular expressions
the source compiles are embedded as executable matching functions built from
two combinators:

* `matchLit` / `matchLitCI` — a literal (case-sensitive / case-insensitive)
  pattern fragment, returning the rest of the input on success.  This models
  `re.match` on a pattern without metacharacters (Python's `re.match` only
  anchors at the start, so success is a prefix match).
* `greedyAux p k` — a greedy character-class group `[...]+` followed by a
  continuation: exactly like the backtracking regex engine it first tries the
  longest run of class characters and shortens the group one character at a
  time until the continuation `k` succeeds.

Python's `\w` is modelled as ASCII alphanumerics plus underscore (the inputs
exercised by the program are ASCII), and `re.IGNORECASE` as ASCII
case-folding (`lowerCh`).
-/

/-- The ASCII apostrophe (several source patterns contain one). -/
def apos : Char := Char.ofNat 39

/-- ASCII case folding, modelling how `re.IGNORECASE` compares characters. -/
def lowerCh (c : Char) : Char :=
  if 'A' ≤ c ∧ c ≤ 'Z' then Char.ofNat (c.toNat + 32) else c

/-- Python regex class `\w` (ASCII fragment): alphanumerics and underscore. -/
def isWordCh (c : Char) : Bool := c.isAlphanum || c = '_'

/-- Python regex class `[\w ]`. -/
def isWordSpace (c : Char) : Bool := isWordCh c || c = ' '

/-- Python regex class `[\w` ]` (word chars, backtick, space), as used by
the PetTracker patterns. -/
def isWSB (c : Char) : Bool := isWordSpace c || c = '`'

/-- Match a literal pattern fragment at the head of the input
(case-sensitive); returns the remaining input. -/
def matchLit : List Char → List Char → Option (List Char)
  | [], s => some s
  | _ :: _, [] => none
  | p :: ps, c :: cs => if p = c then matchLit ps cs else none

/-- Match a literal pattern fragment at the head of the input, ignoring ASCII
case (models `re.IGNORECASE`); returns the remaining input. -/
def matchLitCI : List Char → List Char → Option (List Char)
  | [], s => some s
  | _ :: _, [] => none
  | p :: ps, c :: cs => if lowerCh p = lowerCh c then matchLitCI ps cs else none

/-- Greedy `[class]+` group followed by a continuation `k`: returns the
captured group together with the continuation's result, trying the longest
group first exactly like the backtracking regex engine. -/
def greedyAux (p : Char → Bool) (k : List Char → Option α) : List Char → Option (List Char × α)
  | [] => none
  | c :: rest =>
    if p c then
      match greedyAux p k rest with
      | some (g, v) => some (c :: g, v)
      | none =>
        match k rest with
        | some v => some ([c], v)
        | none => none
    else none

/-- Model of `int()` on a string of decimal digits. -/
def parseDigits (s : List Char) : Nat :=
  s.foldl (fun a ch => a * 10 + (ch.toNat - 48)) 0

/-- One decimal digit character (defined for arguments `< 10`). -/
def digitCh (n : Nat) : Char :=
  match n with
  | 0 => '0' | 1 => '1' | 2 => '2' | 3 => '3' | 4 => '4'
  | 5 => '5' | 6 => '6' | 7 => '7' | 8 => '8' | _ => '9'

/-- Decimal digits of a positive number, least significant first. -/
def natDigitsRev : Nat → List Char
  | 0 => []
  | n + 1 => digitCh ((n + 1) % 10) :: natDigitsRev ((n + 1) / 10)
decreasing_by exact Nat.div_lt_self (Nat.succ_pos n) (by norm_num)

/-- Decimal rendering of a `Nat`, modelling Python's `str(int)`. -/
def natToChars (n : Nat) : List Char :=
  if n = 0 then ['0'] else (natDigitsRev n).reverse

/-- Render an optional name the way Python string-formats it:
`None` becomes the four characters `None`. -/
def showOptName : Option (List Char) → List Char
  | none => "None".data
  | some n => n

/-! ### Combinator lemmas -/

theorem matchLit_eq_append {l s r : List Char} (h : matchLit l s = some r) :
    s = l ++ r := by
  induction l generalizing s with
  | nil =>
    simp only [matchLit, Option.some.injEq] at h
    simpa using h
  | cons p ps ih =>
    cases s with
    | nil => simp [matchLit] at h
    | cons c cs =>
      by_cases hpc : p = c
      · simp [matchLit, hpc] at h
        simpa [hpc] using congrArg (c :: ·) (ih h)
      · simp [matchLit, hpc] at h

theorem matchLit_self_append (l r : List Char) : matchLit l (l ++ r) = some r := by
  induction l with
  | nil => rfl
  | cons c cs ih => simp [matchLit, ih]

theorem matchLitCI_self_append (l r : List Char) : matchLitCI l (l ++ r) = some r := by
  induction l with
  | nil => rfl
  | cons c cs ih => simp [matchLitCI, ih]

/-- Cancel a shared (exact) head: CI-matching `a ++ b` against `a ++ c`
reduces to CI-matching `b` against `c`. -/
theorem matchLitCI_append_cancel (a b c : List Char) :
    matchLitCI (a ++ b) (a ++ c) = matchLitCI b c := by
  induction a with
  | nil => rfl
  | cons x xs ih => simp [matchLitCI, ih]

/-- A failing CI literal stays failing when the pattern is extended. -/
theorem matchLitCI_append_none {a : List Char} (b : List Char) {s : List Char}
    (h : matchLitCI a s = none) : matchLitCI (a ++ b) s = none := by
  induction a generalizing s with
  | nil => simp [matchLitCI] at h
  | cons x xs ih =>
    cases s with
    | nil => simp [matchLitCI]
    | cons c cs =>
      by_cases hx : lowerCh x = lowerCh c
      · simp [matchLitCI, hx] at h ⊢; exact ih h
      · simp [matchLitCI, hx]

theorem matchLit_length {l s r : List Char} (h : matchLit l s = some r) :
    s.length = l.length + r.length := by
  have := matchLit_eq_append h
  simp [this]

/-- Characters of a successfully matched literal occur in the input. -/
theorem matchLit_mem {l s r : List Char} (h : matchLit l s = some r)
    {c : Char} (hc : c ∈ l) : c ∈ s := by
  rw [matchLit_eq_append h]
  exact List.mem_append_left _ hc

/-- Soundness of the greedy group: on success the input splits into the
captured group and a remainder accepted by the continuation, and the group
consists of class characters. -/
theorem greedyAux_sound {p : Char → Bool} {k : List Char → Option α}
    {s g : List Char} {v : α} (h : greedyAux p k s = some (g, v)) :
    s = g ++ (s.drop g.length) ∧ k (s.drop g.length) = some v ∧
      g ≠ [] ∧ ∀ c ∈ g, p c := by
  induction s generalizing g with
  | nil => simp [greedyAux] at h
  | cons c rest ih =>
    by_cases hc : p c
    · simp only [greedyAux, hc, if_true] at h
      cases hrec : greedyAux p k rest with
      | some gv =>
        obtain ⟨g', v'⟩ := gv
        rw [hrec] at h
        simp only [Option.some.injEq, Prod.mk.injEq] at h
        obtain ⟨hg, hv⟩ := h
        subst hg; subst hv
        obtain ⟨h1, h2, h3, h4⟩ := ih hrec
        refine ⟨?_, ?_, by simp, ?_⟩
        · simpa [List.drop] using congrArg (c :: ·) h1
        · simpa [List.drop] using h2
        · intro x hx
          rcases List.mem_cons.mp hx with h | h
          · subst h; exact hc
          · exact h4 x h
      | none =>
        rw [hrec] at h
        cases hk : k rest with
        | some v' =>
          rw [hk] at h
          simp only [Option.some.injEq, Prod.mk.injEq] at h
          obtain ⟨hg, hv⟩ := h
          subst hg; subst hv
          refine ⟨by simp [List.drop], by simpa [List.drop] using hk, by simp, ?_⟩
          intro x hx
          simp only [List.mem_singleton] at hx
          subst hx; exact hc
        | none => rw [hk] at h; exact absurd h (by simp)
    · simp [greedyAux, hc] at h

/-- If every split of `X` after a nonempty class-run fails the continuation,
the greedy group fails on `X`. -/
theorem greedyAux_none {p : Char → Bool} {k : List Char → Option α} {X : List Char}
    (H : ∀ a b, X = a ++ b → a ≠ [] → (∀ c ∈ a, p c) → k b = none) :
    greedyAux p k X = none := by
  induction X with
  | nil => rfl
  | cons c rest ih =>
    by_cases hc : p c
    · have hrest : greedyAux p k rest = none := by
        apply ih
        intro a b hab ha hcl
        refine H (c :: a) b (by simp [hab]) (by simp) ?_
        intro x hx
        rcases List.mem_cons.mp hx with h | h
        · subst h; exact hc
        · exact hcl x h
      have hk : k rest = none :=
        H [c] rest (by simp) (by simp) (by intro x hx; simp at hx; subst hx; exact hc)
      simp [greedyAux, hc, hrest, hk]
    · simp [greedyAux, hc]

/-- One-step computation rule for the greedy group (recursive success). -/
theorem greedyAux_cons_some {p : Char → Bool} {k : List Char → Option α}
    {c : Char} {rest g : List Char} {v : α}
    (hc : p c = true) (h : greedyAux p k rest = some (g, v)) :
    greedyAux p k (c :: rest) = some (c :: g, v) := by
  simp [greedyAux, hc, h]

/-- One-step computation rule for the greedy group (group of length one). -/
theorem greedyAux_cons_base {p : Char → Bool} {k : List Char → Option α}
    {c : Char} {rest : List Char} {v : α}
    (hc : p c = true) (h1 : greedyAux p k rest = none) (h2 : k rest = some v) :
    greedyAux p k (c :: rest) = some ([c], v) := by
  simp [greedyAux, hc, h1, h2]

/-- The central greedy characterization: if the continuation succeeds exactly
at the boundary after `t` (and fails at every deeper split inside `X`), the
greedy group captures exactly `t`. -/
theorem greedyAux_split {p : Char → Bool} {k : List Char → Option α}
    {t X : List Char} {v : α}
    (ht : t ≠ []) (htc : ∀ c ∈ t, p c) (hk : k X = some v)
    (H : ∀ a b, X = a ++ b → a ≠ [] → (∀ c ∈ a, p c) → k b = none) :
    greedyAux p k (t ++ X) = some (t, v) := by
  induction t with
  | nil => exact absurd rfl ht
  | cons c t' ih =>
    have hc : p c = true := htc c (by simp)
    cases t' with
    | nil =>
      have hnone : greedyAux p k X = none := greedyAux_none H
      simpa using greedyAux_cons_base hc hnone hk
    | cons d t'' =>
      have hrec : greedyAux p k (d :: t'' ++ X) = some (d :: t'', v) := by
        refine ih (by simp) ?_
        intro x hx
        exact htc x (List.mem_cons_of_mem c hx)
      exact greedyAux_cons_some hc hrec

/-! ### Timestamp model (`ParseTarget._set_timestamps`)

`_set_timestamps` runs `datetime.strptime(line[0:26], '[%a %b %d %H:%M:%S %Y]')`
and raises `ValueError` on malformed input.  The model accepts the canonical
fixed-width EQ timestamp (weekday and month names case-insensitively, as
`strptime` does; two-digit zero-padded day/hour/minute/second and four-digit
year, which is the only shape a 26-character slice can carry), and performs
the range validation that `strptime`/`datetime` perform (day within the
month incl. leap years, hour ≤ 23, minute/second ≤ 59, year ≥ 1). -/

structure EqTimestamp where
  month : Nat
  day : Nat
  hour : Nat
  minute : Nat
  second : Nat
  year : Nat
  deriving DecidableEq, Repr

def dayNames : List (List Char) :=
  ["sun".data, "mon".data, "tue".data, "wed".data, "thu".data, "fri".data, "sat".data]

def monthNum (m : List Char) : Option Nat :=
  if m = "jan".data then some 1 else if m = "feb".data then some 2
  else if m = "mar".data then some 3 else if m = "apr".data then some 4
  else if m = "may".data then some 5 else if m = "jun".data then some 6
  else if m = "jul".data then some 7 else if m = "aug".data then some 8
  else if m = "sep".data then some 9 else if m = "oct".data then some 10
  else if m = "nov".data then some 11 else if m = "dec".data then some 12
  else none

def digitVal (c : Char) : Nat := c.toNat - 48

def isLeapYear (y : Nat) : Bool := (y % 4 = 0 && y % 100 ≠ 0) || y % 400 = 0

def daysInMonth (m y : Nat) : Nat :=
  if m = 2 then (if isLeapYear y then 29 else 28)
  else if m = 4 ∨ m = 6 ∨ m = 9 ∨ m = 11 then 30
  else 31

def parseEqTimestamp (s : List Char) : Option EqTimestamp :=
  match s with
  | '[' :: a1 :: a2 :: a3 :: ' ' :: b1 :: b2 :: b3 :: ' ' :: d1 :: d2 :: ' ' ::
      h1 :: h2 :: ':' :: n1 :: n2 :: ':' :: s1 :: s2 :: ' ' ::
      y1 :: y2 :: y3 :: y4 :: ']' :: [] =>
    if [lowerCh a1, lowerCh a2, lowerCh a3] ∈ dayNames &&
        d1.isDigit && d2.isDigit && h1.isDigit && h2.isDigit &&
        n1.isDigit && n2.isDigit && s1.isDigit && s2.isDigit &&
        y1.isDigit && y2.isDigit && y3.isDigit && y4.isDigit then
      match monthNum [lowerCh b1, lowerCh b2, lowerCh b3] with
      | some mo =>
        let dd := digitVal d1 * 10 + digitVal d2
        let hh := digitVal h1 * 10 + digitVal h2
        let mi := digitVal n1 * 10 + digitVal n2
        let ss := digitVal s1 * 10 + digitVal s2
        let yy := digitVal y1 * 1000 + digitVal y2 * 100 + digitVal y3 * 10 + digitVal y4
        if 1 ≤ dd && dd ≤ daysInMonth mo yy && hh ≤ 23 && mi ≤ 59 && ss ≤ 59 && 1 ≤ yy then
          some ⟨mo, dd, hh, mi, ss, yy⟩
        else none
      | none => none
    else none
  | _ => none

/-- Two-digit zero-padded decimal rendering. -/
def pad2 (n : Nat) : List Char := if n < 10 then ['0', digitCh n] else natToChars n

/-- Rendering of the aware UTC datetime by Python's `str()`:
`YYYY-MM-DD HH:MM:SS+00:00`.  (The local-to-UTC shift performed by
`astimezone` is environment-dependent and none of the claims depend on the
shifted value, so the stored fields are rendered directly.) -/
def showEqTs (t : EqTimestamp) : List Char :=
  natToChars t.year ++ '-' :: pad2 t.month ++ '-' :: pad2 t.day ++
    ' ' :: pad2 t.hour ++ ':' :: pad2 t.minute ++ ':' :: pad2 t.second ++ "+00:00".data

/-- Rendering of `str(self._utc_datetime)`: `None` before any match. -/
def showUTCopt : Option EqTimestamp → List Char
  | none => "None".data
  | some t => showEqTs t

/-- Rendering of `str(self._matching_line)`: `None` before any match. -/
def showOptLine : Option (List Char) → List Char
  | none => "None".data
  | some l => l

/-! ### ParseTarget detector framework (`ParseTarget.py`)

Each `ParseTarget` subclass is a tagged variant `PTKind`; an instance's
mutable fields live in `PTState`.  A trigger is a function from the truncated
line to an optional list of named capture groups; `pt_hook` embeds the
`_custom_match_hook` overrides (default: accept).  `pt_matches` embeds
`ParseTarget.matches`: strip the first 27 characters, test every trigger in
order (no short-circuit), and on an accepted match run `_set_timestamps`,
whose `strptime` failure is the `Except` error. -/

inductive PTKind
  | vesselDrozlin | verinaTomb | masterYael | dainFrostreaver | severilous
  | cazicThule | fte | playerSlain | earthquake | random | gratss | tod | gmotd
  deriving DecidableEq, Repr

structure PTState where
  kind : PTKind
  parse_target_ID : Nat
  short_description : List Char
  playername : Option (List Char)
  parsing_player : List Char
  matching_line : Option (List Char)
  utc_datetime : Option EqTimestamp
  deriving DecidableEq, Repr

/-- Named capture groups of one regex match. -/
def Groups := List (String × List Char)

/-- A trigger with no capture groups: a literal pattern (regex metacharacter
free), matched at the start of the truncated line. -/
def litTrig (pat : List Char) (s : List Char) : Option Groups :=
  (matchLit pat s).map fun _ => []

/-- Trigger `^<boss> engages (?P<playername>[\w ]+)!` -/
def engagesTrig (boss : List Char) (s : List Char) : Option Groups :=
  (matchLit (boss ++ " engages ".data) s).bind fun r =>
    (greedyAux isWordSpace (matchLit "!".data) r).map fun gv => [("playername", gv.1)]

/-- Trigger `^(?P<target_name>[\w ]+) engages (?P<playername>[\w ]+)!` (FTE). -/
def fteTrig (s : List Char) : Option Groups :=
  (greedyAux isWordSpace (fun r =>
      (matchLit " engages ".data r).bind fun r2 =>
        greedyAux isWordSpace (matchLit "!".data) r2) s).map
    fun gv => [("target_name", gv.1), ("playername", gv.2.1)]

/-- Trigger `^You have been slain by (?P<target_name>[\w ]+)` -/
def slainByTrig (s : List Char) : Option Groups :=
  (matchLit "You have been slain by ".data s).bind fun r =>
    (greedyAux isWordSpace (fun _ => some ()) r).map fun gv => [("target_name", gv.1)]

/-- Trigger `\*\*A Magic Die is rolled by (?P<playername>[\w ]+)\.` -/
def dieRolledTrig (s : List Char) : Option Groups :=
  (matchLit "**A Magic Die is rolled by ".data s).bind fun r =>
    (greedyAux isWordSpace (matchLit ".".data) r).map fun gv => [("playername", gv.1)]

/-- Trigger `\*\*It could have been any number from (?P<low>[0-9]+) to (?P<high>[0-9]+), but this time it turned up a (?P<value>[0-9]+)\.` -/
def rollResultTrig (s : List Char) : Option Groups :=
  (matchLit "**It could have been any number from ".data s).bind fun r =>
    (greedyAux Char.isDigit (fun r2 =>
        (matchLit " to ".data r2).bind fun r3 =>
          greedyAux Char.isDigit (fun r4 =>
              (matchLit ", but this time it turned up a ".data r4).bind fun r5 =>
                greedyAux Char.isDigit (matchLit ".".data) r5) r3) r).map
      fun gv => [("low", gv.1), ("high", gv.2.1), ("value", gv.2.2.1)]

/-- Does the CI literal match at the head? -/
def startsCI (pat s : List Char) : Bool := (matchLitCI pat s).isSome

/-- Pattern `.*<pat>` with `re.IGNORECASE`: the pattern occurs (case-insensitively)
somewhere in the line. -/
def containsCI (pat : List Char) : List Char → Bool
  | [] => startsCI pat []
  | c :: rest => startsCI pat (c :: rest) || containsCI pat rest

/-- Trigger `.*gratss(?i)` -/
def gratssTrig (s : List Char) : Option Groups :=
  if containsCI "gratss".data s then some [] else none

/-- Trigger `.*tod(?i)` -/
def todCommTrig (s : List Char) : Option Groups :=
  if containsCI "tod".data s then some [] else none

/-- Trigger `^(?P<target_name>[\w ]+) has been slain` -/
def hasBeenSlainTrig (s : List Char) : Option Groups :=
  (greedyAux isWordSpace (matchLit " has been slain".data) s).map
    fun gv => [("target_name", gv.1)]

/-- Trigger `^GUILD MOTD:` -/
def gmotdTrig (s : List Char) : Option Groups := litTrig "GUILD MOTD:".data s

/-- Cazic Thule's shout line (5th trigger; the source omits the caret but
`re.match` anchors at the start anyway). -/
def cazicShoutPat : List Char :=
  "Cazic Thule  shouts ".data ++ apos ::
    "Denizens of Fear, your master commands you to come forth to his aid!!".data

def triggersOf : PTKind → List (List Char → Option Groups)
  | .vesselDrozlin =>
    [litTrig "Vessel Drozlin begins to cast a spell".data,
     engagesTrig "Vessel Drozlin".data,
     litTrig "Vessel Drozlin has been slain".data,
     litTrig "Vessel Drozlin says".data,
     litTrig "You have been slain by Vessel Drozlin".data]
  | .verinaTomb =>
    [litTrig "Verina Tomb begins to cast a spell".data,
     engagesTrig "Verina Tomb".data,
     litTrig "Verina Tomb has been slain".data,
     litTrig "Verina Tomb says".data,
     litTrig "You have been slain by Verina Tomb".data]
  | .masterYael =>
    [litTrig "Master Yael begins to cast a spell".data,
     engagesTrig "Master Yael".data,
     litTrig "Master Yael has been slain".data,
     litTrig "Master Yael says".data,
     litTrig "You have been slain by Master Yael".data]
  | .dainFrostreaver =>
    [engagesTrig "Dain Frostreaver IV".data,
     litTrig "Dain Frostreaver IV says".data,
     litTrig "Dain Frostreaver IV has been slain".data,
     litTrig "You have been slain by Dain Frostreaver IV".data]
  | .severilous =>
    [litTrig "Severilous begins to cast a spell".data,
     engagesTrig "Severilous".data,
     litTrig "Severilous has been slain".data,
     litTrig "Severilous says".data,
     litTrig "You have been slain by Severilous".data]
  | .cazicThule =>
    [engagesTrig "Cazic Thule".data,
     litTrig "Cazic Thule has been slain".data,
     litTrig "Cazic Thule says".data,
     litTrig "You have been slain by Cazic Thule".data,
     litTrig cazicShoutPat]
  | .fte => [fteTrig]
  | .playerSlain => [slainByTrig]
  | .earthquake =>
    [litTrig "The Gods of Norrath emit a sinister laugh as they toy with their creations".data]
  | .random => [dieRolledTrig, rollResultTrig]
  | .gratss => [gratssTrig]
  | .tod => [todCommTrig, hasBeenSlainTrig]
  | .gmotd => [gmotdTrig]

/-- Table `TOD_Parser.known_targets`. -/
def todKnownTargets : List (List Char) :=
  ["Kelorek`Dar".data, "Vaniki".data, "Vilefang".data, "Zlandicar".data,
   "Narandi the Wretched".data, "Lodizal".data, "Stormfeather".data,
   "Dain Frostreaver IV".data, "Derakor the Vindicator".data,
   "Keldor Dek`Torek".data, "King Tormax".data, "The Statue of Rallos Zek".data,
   "The Avatar of War".data, "Tunare".data, "Lord Yelinak".data,
   "Master of the Guard".data, "The Final Arbiter".data, "The Progenitor".data,
   "An angry goblin".data, "Casalen".data, "Dozekar the Cursed".data,
   "Essedera".data, "Grozzmel".data, "Krigara".data, "Lepethida".data,
   "Midayor".data, "Tavekalem".data, "Ymmeln".data, "Aaryonar".data,
   "Cekenar".data, "Dagarn the Destroyer".data, "Eashen of the Sky".data,
   "Ikatiar the Venom".data, "Jorlleag".data, "Lady Mirenilla".data,
   "Lady Nevederia".data, "Lord Feshlak".data, "Lord Koi`Doken".data,
   "Lord Kreizenn".data, "Lord Vyemm".data, "Sevalak".data, "Vulak`Aerr".data,
   "Zlexak".data, "Gozzrem".data, "Lendiniara the Keeper".data,
   "Telkorenar".data, "Wuoshi".data, "Druushk".data, "Hoshkar".data,
   "Nexona".data, "Phara Dar".data, "Silverwing".data, "Xygoz".data,
   "Lord Doljonijiarnimorinar".data, "Velketor the Sorcerer".data,
   "Guardian Kozzalym".data, "Klandicar".data, "Myga NE PH".data,
   "Myga ToV PH".data, "Scout Charisa".data, "Sontalak".data, "Gorenaire".data,
   "Vessel Drozlin".data, "Severilous".data, "Venril Sathir".data,
   "Trakanon".data, "Talendor".data, "Faydedar".data, "a shady goblin".data,
   "Phinigel Autropos".data, "Lord Nagafen".data, "Zordak Ragefire".data,
   "Verina Tomb".data, "Lady Vox".data, "A dracoliche".data, "Cazic Thule".data,
   "Dread".data, "Fright".data, "Terror".data, "Wraith of a Shissir".data,
   "Innoruuk".data, "Noble Dojorn".data, "Nillipuss".data, "Master Yael".data,
   "Sir Lucan D`Lere".data]

/-- The `_custom_match_hook` overrides (`FTE_Parser`, `Random_Parser`,
`TOD_Parser`); every other class inherits the default `return True`.
Returns (accepted?, updated state). -/
def pt_hook (st : PTState) (g : Groups) : Bool × PTState :=
  match st.kind with
  | .fte =>
    (true, {st with short_description :=
      "FTE: ".data ++ (g.lookup "target_name").getD [] ++ " engages ".data ++
        (g.lookup "playername").getD []})
  | .random =>
    match g.lookup "playername" with
    | some p => (false, {st with playername := some p})
    | none =>
      (true, {st with
        short_description :=
          "Random roll: ".data ++ showOptName st.playername ++ ", ".data ++
            (g.lookup "low").getD [] ++ "-".data ++ (g.lookup "high").getD [] ++
            ", Value=".data ++ (g.lookup "value").getD [],
        playername := none})
  | .tod =>
    match g.lookup "target_name" with
    | some t =>
      if t ∈ todKnownTargets then
        (true, {st with short_description := "TOD (Slain Message): ".data ++ t})
      else (true, {st with short_description := "TOD".data})
    | none => (true, {st with short_description := "TOD".data})
  | _ => (true, st)

/-- Model of `ParseTarget._set_timestamps`: stores the matching line and the parsed
timestamp of `line[0:26]`; `none` models the `ValueError` that `strptime`
raises on malformed input. -/
def pt_set_timestamps (st : PTState) (line : List Char) : Option PTState :=
  (parseEqTimestamp (line.take 26)).map fun t =>
    {st with matching_line := some line, utc_datetime := some t}

/-- The trigger loop inside `ParseTarget.matches` (no short-circuit: every
trigger is tested; `rv` latches to `true` on the first accepted match). -/
def pt_matchesGo (line trunc : List Char) :
    List (List Char → Option Groups) → Bool → PTState → Except Unit (Bool × PTState)
  | [], rv, st => .ok (rv, st)
  | trig :: rest, rv, st =>
    match trig trunc with
    | none => pt_matchesGo line trunc rest rv st
    | some g =>
      match pt_hook st g with
      | (true, st') =>
        match pt_set_timestamps st' line with
        | some st'' => pt_matchesGo line trunc rest true st''
        | none => .error ()
      | (false, st') => pt_matchesGo line trunc rest rv st'

/-- Model of `ParseTarget.matches`. -/
def pt_matches (st : PTState) (line : List Char) : Except Unit (Bool × PTState) :=
  pt_matchesGo line (line.drop 27) (triggersOf st.kind) false st

/-- Model of `ParseTarget.report`: the six `|`-separated fields. -/
def pt_report (st : PTState) : List Char :=
  "EQ__".data ++ '|' :: st.parsing_player ++ '|' :: natToChars st.parse_target_ID ++
    '|' :: st.short_description ++ '|' :: showUTCopt st.utc_datetime ++
    '|' :: showOptLine st.matching_line

def mkPT (k : PTKind) (id : Nat) (desc : String) : PTState :=
  ⟨k, id, desc.data, none, "Unknown".data, none, none⟩

/-- The `ParseTargetParser` registry, in constructor order with the source's
IDs and descriptions (the commented-out `CommsFilter_Parser` is absent). -/
def registryInit : List PTState :=
  [mkPT .vesselDrozlin 1 "Vessel Drozlin spawn!",
   mkPT .verinaTomb 2 "Verina Tomb spawn!",
   mkPT .dainFrostreaver 4 "Dain Frostreaver IV spawn!",
   mkPT .severilous 5 "Severilous spawn!",
   mkPT .cazicThule 6 "Cazic Thule spawn!",
   mkPT .masterYael 3 "Master Yael spawn!",
   mkPT .fte 7 "FTE!",
   mkPT .playerSlain 8 "Player Slain!",
   mkPT .earthquake 9 "Earthquake!",
   mkPT .random 10 "Random!",
   mkPT .gratss 12 "Gratss",
   mkPT .tod 13 "TOD",
   mkPT .gmotd 14 "GMOTD"]

/-- The dispatch loop of `ParseTargetParser.process_line`: every detector is
evaluated against the line and each accepted match emits one `report()`
string; an uncaught `strptime` exception aborts the loop. -/
def registryGo (line : List Char) :
    List PTState → Except Unit (List (List Char) × List PTState)
  | [] => .ok ([], [])
  | st :: rest =>
    match pt_matches st line with
    | .error e => .error e
    | .ok (b, st') =>
      match registryGo line rest with
      | .error e => .error e
      | .ok (evs, sts) => .ok ((if b then [pt_report st'] else []) ++ evs, st' :: sts)

def registry_process_line (sts : List PTState) (line : List Char) :
    Except Unit (List (List Char) × List PTState) :=
  registryGo line sts

/-! ### File tailer model (`EverquestLogFile.py`)

The filesystem is abstracted: `open_latest` receives the glob result as a
list of `(filename, mtime)` pairs, and the outcome of the OS `open`/`seek`
calls as oracles (`osOpen`: the new handle, or `none` for an `OSError`;
`osSeek`: whether `seek` succeeds; `fsize`: the end-of-file position).
File-handle side effects are recorded in a `FileOp` trace.

`files.sort(key=os.path.getmtime, reverse=True)` is a stable descending
sort; it is embedded as an insertion sort, which agrees with Python's stable
sort on lists with pairwise-distinct mtimes (the only case the claims
exercise). -/

inductive FileOp
  | closeF
  | openF (name : List Char)
  deriving DecidableEq, Repr

inductive PyErr
  | valueError
  | attributeError
  deriving DecidableEq, Repr

structure ELFState where
  base_directory : List Char
  logs_directory : List Char
  server_name : List Char
  char_name : List Char
  filename : List Char
  file : Option Nat
  pos : Nat
  parsing : Bool
  deriving DecidableEq, Repr

/-- Insert into a descending-sorted list (stable for equal keys). -/
def insertDesc (x : List Char × Nat) : List (List Char × Nat) → List (List Char × Nat)
  | [] => [x]
  | y :: ys => if x.2 > y.2 then x :: y :: ys else y :: insertDesc x ys

/-- Sort by mtime, most recent first. -/
def sortFilesDesc (l : List (List Char × Nat)) : List (List Char × Nat) :=
  l.foldr insertDesc []

/-- The character-name extraction of `open_latest`: the mask with
`eqlog_*_` replaced by `eqlog_(?P<charname>[\w ]+)_` and backslashes
escaped, `re.match`-ed against the latest filename.  The directory part is a
regex literal (the source escapes backslashes; this model, like the source's
intent, treats the remaining directory characters as literals), then
`eqlog_`, then the greedy `[\w ]+` group, then `_<server>`, then `.` (an
unescaped regex dot: any character), then `txt`; `re.match` needs only a
prefix match. -/
def extract_charname (base logs server fname : List Char) : Option (List Char) :=
  (matchLit (base ++ logs) fname).bind fun r1 =>
    (matchLit "eqlog_".data r1).bind fun r2 =>
      (greedyAux isWordSpace (fun r3 =>
          (matchLit ('_' :: server) r3).bind fun r4 =>
            match r4 with
            | [] => none
            | _ :: r5 => (matchLit "txt".data r5).map fun _ => ()) r2).map
        fun gv => gv.1

/-- Model of `EverquestLogFile.open`: `self.file = open(...)` (oracle `osOpen`), then
`seek` to the end when requested (oracle `osSeek`), then assign `char_name`,
`filename` and set the parsing flag.  An `OSError` from either call is
caught; when `open` itself raised, nothing was assigned. -/
def elf_open (st : ELFState) (charname filename : List Char) (seek_end : Bool)
    (osOpen : Option Nat) (osSeek : Bool) (fsize : Nat) :
    Bool × ELFState × List FileOp :=
  match osOpen with
  | none => (false, st, [FileOp.openF filename])
  | some fid =>
    let st1 := {st with file := some fid}
    if seek_end && !osSeek then
      (false, st1, [FileOp.openF filename])
    else
      (true, {st1 with pos := if seek_end then fsize else 0,
                       char_name := charname, filename := filename,
                       parsing := true},
        [FileOp.openF filename])

/-- Model of `EverquestLogFile.close`: closes the handle and clears the parsing flag
(the stale handle object stays in `self.file`). -/
def elf_close (st : ELFState) : ELFState × List FileOp :=
  ({st with parsing := false}, [FileOp.closeF])

/-- Model of `EverquestLogFile.open_latest`. -/
def open_latest (st : ELFState) (globFiles : List (List Char × Nat))
    (seek_end : Bool) (osOpen : Option Nat) (osSeek : Bool) (fsize : Nat) :
    Except PyErr (Bool × ELFState × List FileOp) :=
  let files := sortFilesDesc globFiles
  match files with
  | [] => .error .valueError
  | (latest, _) :: _ =>
    match extract_charname st.base_directory st.logs_directory st.server_name latest with
    | none => .error .attributeError
    | some cn =>
      if st.parsing && st.filename = latest then
        .ok (false, st, [])
      else if st.parsing then
        let (stc, ops1) := elf_close st
        let (rv, st', ops2) := elf_open stc cn latest seek_end osOpen osSeek fsize
        .ok (rv, st', ops1 ++ ops2)
      else
        let (rv, st', ops) := elf_open st cn latest seek_end osOpen osSeek fsize
        .ok (rv, st', ops)

/-! ### Pet tracker model (`PetTracker.py`)

`PetTracker.process_line` is a state transition on a `Tracker`; the
`client.send(...)` calls become a list of `Notif` outputs (`Notif.pet` for
`send(self.current_pet)`, `Notif.text` for the string messages).  The seven
successive blocks of the source method become `step...` functions applied in
source order. -/

structure PetStats where
  rank : Nat
  pet_level : Nat
  max_melee : Nat
  max_bashkick : Nat
  max_backstab : Nat
  lifetap : Nat
  deriving DecidableEq, Repr

structure PetSpell where
  spell_name : List Char
  eq_class : List Char
  caster_level : Nat
  pet_stats_list : List PetStats
  deriving DecidableEq, Repr

structure Pet where
  pet_name : Option (List Char)
  name_pending : Bool
  lifetap_pending : Bool
  pet_spell : PetSpell
  max_melee : Nat
  pet_rank : Nat
  pet_level : ℚ
  deriving DecidableEq, Repr

/-- Model of `Pet.__init__`. -/
def freshPet (ps : PetSpell) : Pet :=
  ⟨none, true, false, ps, 0, 0, 0⟩

structure Tracker where
  current_pet : Option Pet
  all_pets : List Pet
  char_name : List Char
  deriving DecidableEq, Repr

inductive Notif
  | text (msg : List Char)
  | pet (p : Pet)
  deriving DecidableEq, Repr

def mkStats (r lv mm bk bs lt : Nat) : PetStats := ⟨r, lv, mm, bk, bs, lt⟩

/-- Table of `PetTracker.load_pet_dict`, as an association list in insertion order. -/
def petDict : List (List Char × PetSpell) :=
  [("Bone Walk".data,
    ⟨"Bone Walk".data, "Necro".data, 8,
     [mkStats 1 6 8 8 0 0, mkStats 2 7 10 10 0 0, mkStats 3 8 12 12 0 0,
      mkStats 4 9 14 13 0 0]⟩),
   ("Convoke Shadow".data,
    ⟨"Convoke Shadow".data, "Necro".data, 12,
     [mkStats 1 8 10 10 0 0, mkStats 2 9 12 12 0 0, mkStats 3 10 14 14 0 0,
      mkStats 4 11 16 16 0 0]⟩),
   ("Restless Bones".data,
    ⟨"Restless Bones".data, "Necro".data, 16,
     [mkStats 1 12 12 12 0 0, mkStats 2 13 14 14 0 0, mkStats 3 14 16 15 0 0,
      mkStats 4 15 18 15 0 0, mkStats 5 16 20 16 0 0]⟩),
   ("Animate Dead".data,
    ⟨"Animate Dead".data, "Necro".data, 20,
     [mkStats 1 15 14 14 0 0, mkStats 2 16 16 15 0 0, mkStats 3 17 18 15 0 0,
      mkStats 4 18 20 16 0 0, mkStats 5 19 22 16 0 0]⟩),
   ("Haunting Corpse".data,
    ⟨"Haunting Corpse".data, "Necro".data, 24,
     [mkStats 1 18 18 15 0 0, mkStats 2 19 20 16 0 0, mkStats 3 20 22 16 0 0,
      mkStats 4 21 23 17 0 0, mkStats 5 22 26 17 0 0]⟩),
   ("Invoke Death".data,
    ⟨"Invoke Death".data, "Necro".data, 49,
     [mkStats 1 37 47 22 0 38, mkStats 2 38 49 23 0 39, mkStats 3 39 51 23 0 40,
      mkStats 4 40 52 24 0 41, mkStats 5 41 55 24 0 42]⟩),
   ("Minion of Shadows".data,
    ⟨"Minion of Shadows".data, "Necro".data, 53,
     [mkStats 1 40 49 0 147 40, mkStats 2 41 51 0 153 41, mkStats 3 42 52 0 159 42,
      mkStats 4 43 55 0 165 43, mkStats 5 44 56 0 171 44]⟩),
   ("Servant of Bones".data,
    ⟨"Servant of Bones".data, "Necro".data, 56,
     [mkStats 1 40 51 63 0 41, mkStats 2 41 52 65 0 42, mkStats 3 42 55 66 0 43,
      mkStats 4 43 56 68 0 44, mkStats 5 44 59 69 0 45]⟩),
   ("Zumaik`s Animation".data,
    ⟨"Zumaik`s Animation".data, "Enchanter".data, 55,
     [mkStats 1 44 49 23 0 0, mkStats 2 45 51 23 0 0, mkStats 3 46 52 24 0 0,
      mkStats 4 47 55 24 0 0, mkStats 5 48 56 25 0 0]⟩),
   ("CharmPet".data,
    ⟨"CharmPet".data, "UnknownClass".data, 0, [mkStats 0 0 0 0 0 0]⟩)]

def lookupSpell (n : List Char) : Option PetSpell := petDict.lookup n

def invokeDeathSpell : PetSpell :=
  ⟨"Invoke Death".data, "Necro".data, 49,
   [mkStats 1 37 47 22 0 38, mkStats 2 38 49 23 0 39, mkStats 3 39 51 23 0 40,
    mkStats 4 40 52 24 0 41, mkStats 5 41 55 24 0 42]⟩

def charmPetSpell : PetSpell :=
  ⟨"CharmPet".data, "UnknownClass".data, 0, [mkStats 0 0 0 0 0 0]⟩

/-- Model of `Pet.created_report` (the spell reference is always present). -/
def created_report (p : Pet) : List Char :=
  "Pet created: ".data ++ showOptName p.pet_name ++
    " (".data ++ p.pet_spell.spell_name ++ ")".data

/-- Trigger `^You begin casting (?P<spell_name>[\w` ]+)\.` -/
def castMatch (s : List Char) : Option (List Char) :=
  (matchLit "You begin casting ".data s).bind fun r =>
    (greedyAux isWSB (matchLit ".".data) r).map fun gv => gv.1

/-- Trigger `^(?P<pet_name>[\w ]+) says \'At your service Master.` (the trailing
`.` is an unescaped regex dot: any one character). -/
def nameMatch (s : List Char) : Option (List Char) :=
  (greedyAux isWordSpace (fun r =>
      (matchLit (" says ".data ++ apos :: "At your service Master".data) r).bind fun r2 =>
        match r2 with
        | [] => none
        | _ :: _ => some ()) s).map fun gv => gv.1

/-- Trigger `^(?P<target_name>[\w` ]+) was hit by non-melee for (?P<damage>[\d]+)
points of damage` (case-sensitive). -/
def lifetapMatch (s : List Char) : Option (List Char × List Char) :=
  (greedyAux isWSB (fun r =>
      (matchLit " was hit by non-melee for ".data r).bind fun r2 =>
        (greedyAux Char.isDigit (fun r3 =>
            (matchLit " points of damage".data r3).map fun _ => ()) r2).map
          fun dv => dv.1) s).map fun gv => (gv.1, gv.2)

/-- Trigger `^<pet> beams a smile at (?P<target_name>[\w` ]+)` with `re.IGNORECASE`. -/
def beamsMatch (petName s : List Char) : Option (List Char) :=
  (matchLitCI (petName ++ " beams a smile at ".data) s).bind fun r =>
    (greedyAux isWSB (fun _ => some ()) r).map fun gv => gv.1

def meleeVerbs : List (List Char) :=
  ["hits".data, "slashes".data, "pierces".data, "crushes".data, "claws".data,
   "bites".data, "stings".data, "mauls".data, "gores".data, "punches".data]

/-- The alternation `(hits|slashes|...)`: no verb is a prefix of another, so
at most one branch can match and first-match is faithful to the regex. -/
def matchVerb : List (List Char) → List Char → Option (List Char)
  | [], _ => none
  | v :: vs, s =>
    match matchLitCI v s with
    | some r => some r
    | none => matchVerb vs s

/-- Fragment `point(s)?` — the optional group, with backtracking. -/
def matchOptS (k : List Char → Option Unit) (r : List Char) : Option Unit :=
  match r with
  | [] => k r
  | c :: r' =>
    if lowerCh c = 's' then
      match k r' with
      | some v => some v
      | none => k r
    else k r

/-- The tail ` point(s)? of damage` of the melee pattern. -/
def meleeDamageTail (r6 : List Char) : Option Unit :=
  (matchLitCI " point".data r6).bind fun r7 =>
    matchOptS (fun r8 => (matchLitCI " of damage".data r8).map fun _ => ()) r7

/-- The continuation after the target group: ` for (?P<damage>[\d]+)
point(s)? of damage`; returns the damage digit group. -/
def meleeCont (r4 : List Char) : Option (List Char) :=
  (matchLitCI " for ".data r4).bind fun r5 =>
    (greedyAux Char.isDigit meleeDamageTail r5).map fun dv => dv.1

/-- Trigger `^<pet> (hits|...|punches) (?P<target_name>[\w` ]+) for
(?P<damage>[\d]+) point(s)? of damage` with `re.IGNORECASE`;
returns (target, damage digits). -/
def meleeMatch (petName s : List Char) : Option (List Char × List Char) :=
  (matchLitCI (petName ++ [' ']) s).bind fun r1 =>
    (matchVerb meleeVerbs r1).bind fun r2 =>
      (matchLitCI [' '] r2).bind fun r3 =>
        (greedyAux isWSB meleeCont r3).map fun gv => (gv.1, gv.2)

/-- Trigger `^(?P<pet_name>[\w` ]+) says \'My leader is (?P<char_name>[\w` ]+)`;
returns (pet name, leader name). -/
def leaderMatch (s : List Char) : Option (List Char × List Char) :=
  (greedyAux isWSB (fun r =>
      (matchLit (" says ".data ++ apos :: "My leader is ".data) r).bind fun r2 =>
        (greedyAux isWSB (fun _ => some ()) r2).map fun lv => lv.1) s).map
    fun gv => (gv.1, gv.2)

/-- Trigger `^(?P<pet_name>[\w` ]+) tells you, \'Attacking (?P<target_name>[\w` ]+)
Master`; returns (pet name, target name). -/
def attackMatch (s : List Char) : Option (List Char × List Char) :=
  (greedyAux isWSB (fun r =>
      (matchLit (" tells you, ".data ++ apos :: "Attacking ".data) r).bind fun r2 =>
        (greedyAux isWSB (fun r3 => (matchLit " Master".data r3).map fun _ => ()) r2).map
          fun tv => tv.1) s).map
    fun gv => (gv.1, gv.2)

def failedYouPat : List Char :=
  " says, ".data ++ apos :: "Sorry to have failed you, oh Great One".data

def dontHavePetPat : List Char :=
  "You don".data ++ apos :: "t have a pet to command!".data

/-- Block 1: the four pet-lost checks. -/
def stepLost (st : Tracker) (tr : List Char) : Tracker × List Notif :=
  match st.current_pet with
  | none => (st, [])
  | some p =>
    let nm := showOptName p.pet_name
    if (matchLit "LOADING, PLEASE WAIT".data tr).isSome ||
        (matchLitCI (nm ++ " disperses".data) tr).isSome ||
        (matchLitCI (nm ++ failedYouPat) tr).isSome ||
        (matchLit dontHavePetPat tr).isSome then
      ({st with current_pet := none},
        [Notif.text ("Pet ".data ++ nm ++ " died/lost".data)])
    else (st, [])

/-- Block 2: cast detection of a known pet spell. -/
def stepCast (st : Tracker) (tr : List Char) : Tracker × List Notif :=
  match castMatch tr with
  | none => (st, [])
  | some spellName =>
    match lookupSpell spellName with
    | none => (st, [])
    | some ps =>
      ({st with current_pet := some (freshPet ps)},
        [Notif.text ("*Pet being created from spell (".data ++ spellName ++
          "), name TBD*".data)])

/-- Block 3: learn the pending pet's name. -/
def stepName (st : Tracker) (tr : List Char) : Tracker × List Notif :=
  match st.current_pet with
  | none => (st, [])
  | some p =>
    if p.name_pending then
      match nameMatch tr with
      | none => (st, [])
      | some nm =>
        let p' := {p with pet_name := some nm, name_pending := false}
        ({st with current_pet := some p', all_pets := st.all_pets ++ [p']},
          [Notif.text (created_report p')])
    else (st, [])

/-- The rank loop of the lifetap block: each stats entry whose lifetap equals
the damage and whose rank differs from the current rank updates the pet and
announces. -/
def lifetapScanGo (dmg : Nat) : List PetStats → Pet → List Notif → Pet × List Notif
  | [], q, ns => (q, ns)
  | ps :: rest, q, ns =>
    if ps.lifetap = dmg ∧ q.pet_rank ≠ ps.rank then
      let q' := {q with pet_rank := ps.rank, pet_level := (ps.pet_level : ℚ)}
      lifetapScanGo dmg rest q'
        (ns ++ [Notif.pet q', Notif.text "*Identified via lifetap signature*".data])
    else lifetapScanGo dmg rest q ns

/-- Block 4: resolve an armed lifetap against the stats table. -/
def stepLifetap (st : Tracker) (tr : List Char) : Tracker × List Notif :=
  match st.current_pet with
  | none => (st, [])
  | some p =>
    if p.lifetap_pending then
      match lifetapMatch tr with
      | none => (st, [])
      | some (_, ds) =>
        let dmg := parseDigits ds
        let p1 := {p with lifetap_pending := false}
        let (p2, ns) := lifetapScanGo dmg p1.pet_spell.pet_stats_list p1 []
        ({st with current_pet := some p2}, ns)
    else (st, [])

/-- Block 5: the lifetap `beams a smile` arm. -/
def stepSmile (st : Tracker) (tr : List Char) : Tracker × List Notif :=
  match st.current_pet with
  | none => (st, [])
  | some p =>
    match beamsMatch (showOptName p.pet_name) tr with
    | none => (st, [])
    | some _ => ({st with current_pet := some {p with lifetap_pending := true}}, [])

/-- The rank loop of the melee block: every stats entry whose max_melee
equals the damage sets rank/level (no announcement inside the loop). -/
def meleeScanGo (dmg : Nat) : List PetStats → Pet → Pet
  | [], q => q
  | ps :: rest, q =>
    if ps.max_melee = dmg then
      meleeScanGo dmg rest {q with pet_rank := ps.rank, pet_level := (ps.pet_level : ℚ)}
    else meleeScanGo dmg rest q

/-- Block 6: the max-melee scan. -/
def stepMelee (st : Tracker) (tr : List Char) : Tracker × List Notif :=
  match st.current_pet with
  | none => (st, [])
  | some p =>
    match meleeMatch (showOptName p.pet_name) tr with
    | none => (st, [])
    | some (_, ds) =>
      let damage := parseDigits ds
      if damage > p.max_melee then
        let p1 := {p with max_melee := damage}
        let p2 := meleeScanGo damage p1.pet_spell.pet_stats_list p1
        let p3 :=
          if p2.pet_spell.spell_name = "CharmPet".data then
            {p2 with pet_level :=
              if damage ≤ 60 then (damage : ℚ) / 2 else ((damage : ℚ) + 60) / 4}
          else p2
        ({st with current_pet := some p3},
          [Notif.pet p3, Notif.text "*Identified via max melee damage*".data])
      else (st, [])

/-- Block 7: the two manual reset triggers. -/
def stepReset (st : Tracker) (tr : List Char) : Tracker × List Notif :=
  let a := leaderMatch tr
  let pnA : List Char := match a with | some (pn, _) => pn | none => []
  let rA : Bool := match a with | some (_, cn) => cn = st.char_name | none => false
  let b := attackMatch tr
  let pnB : List Char := match b with | some (pn, _) => pn | none => pnA
  let rB : Bool := rA || (match b with | some (pn, tn) => pn = tn | none => false)
  if rB then
    let ns0 := [Notif.text ("Pet name = ".data ++ pnB)]
    match st.current_pet with
    | none =>
      match lookupSpell "CharmPet".data with
      | none => (st, ns0)
      | some ps =>
        let p := {freshPet ps with pet_name := some pnB, name_pending := false}
        ({st with current_pet := some p, all_pets := st.all_pets ++ [p]},
          ns0 ++ [Notif.text (created_report p)])
    | some p =>
      let p' := {p with pet_name := some pnB, name_pending := false,
                        pet_rank := 0, pet_level := 0, max_melee := 0}
      ({st with current_pet := some p'}, ns0 ++ [Notif.pet p'])
  else (st, [])

/-- The seven blocks of `PetTracker.process_line` in source order, applied to
the already-truncated line. -/
def petStepT (st : Tracker) (tr : List Char) : Tracker × List Notif :=
  let (s1, n1) := stepLost st tr
  let (s2, n2) := stepCast s1 tr
  let (s3, n3) := stepName s2 tr
  let (s4, n4) := stepLifetap s3 tr
  let (s5, n5) := stepSmile s4 tr
  let (s6, n6) := stepMelee s5 tr
  let (s7, n7) := stepReset s6 tr
  (s7, n1 ++ n2 ++ n3 ++ n4 ++ n5 ++ n6 ++ n7)

/-- Model of `PetTracker.process_line`: the seven blocks on the line with its
27-character timestamp prefix stripped. -/
def petStep (st : Tracker) (line : List Char) : Tracker × List Notif :=
  petStepT st (line.drop 27)

/-- Run the tracker over a sequence of lines, accumulating notifications. -/
def petRun (st : Tracker) : List (List Char) → Tracker × List Notif
  | [] => (st, [])
  | l :: ls =>
    let (st', ns) := petStep st l
    let (st'', ns') := petRun st' ls
    (st'', ns ++ ns')

/-- Model of `PetTracker.__init__` (the watched character is `client.elf.char_name`,
initially `Unknown`). -/
def trackerInit : Tracker := ⟨none, [], "Unknown".data⟩

/-! ### Auxiliary character and list lemmas -/

theorem take_append_of_le_len {l1 l2 : List Char} {n : Nat} (h : n ≤ l1.length) :
    (l1 ++ l2).take n = l1.take n := by
  simp [List.take_append_eq_append_take, Nat.sub_eq_zero_of_le h]

theorem isDigit_toNat {c : Char} (h : c.isDigit = true) :
    48 ≤ c.toNat ∧ c.toNat ≤ 57 := by
  simp only [Char.isDigit, Bool.and_eq_true, decide_eq_true_eq] at h
  obtain ⟨h1, h2⟩ := h
  exact ⟨h1, h2⟩

theorem lowerCh_digit {c : Char} (h : c.isDigit = true) : lowerCh c = c := by
  obtain ⟨h1, h2⟩ := isDigit_toNat h
  unfold lowerCh
  rw [if_neg]
  intro hc
  obtain ⟨ha, _⟩ := hc
  have ha' : (65 : Nat) ≤ c.toNat := ha
  omega

theorem digit_ne_space {c : Char} (h : c.isDigit = true) : c ≠ ' ' := by
  obtain ⟨h1, _⟩ := isDigit_toNat h
  intro he
  subst he
  have : (' ').toNat = 32 := rfl
  omega

theorem digit_ne_apos {c : Char} (h : c.isDigit = true) : c ≠ apos := by
  obtain ⟨h1, _⟩ := isDigit_toNat h
  intro he
  subst he
  have : apos.toNat = 39 := rfl
  omega

theorem lowerCh_digit_ne_space {c : Char} (h : c.isDigit = true) :
    lowerCh ' ' ≠ lowerCh c := by
  rw [lowerCh_digit h]
  have hs : lowerCh ' ' = ' ' := rfl
  rw [hs]
  exact fun he => digit_ne_space h he.symm

theorem greedyAux_boundary {p : Char → Bool} {k : List Char → Option α}
    {t : List Char} {x : Char} {xs : List Char} {v : α}
    (ht : t ≠ []) (htc : ∀ c ∈ t, p c) (hx : p x = false)
    (hk : k (x :: xs) = some v) :
    greedyAux p k (t ++ x :: xs) = some (t, v) := by
  apply greedyAux_split ht htc hk
  intro a b hab ha hcl
  cases a with
  | nil => exact absurd rfl ha
  | cons c a' =>
    have hc : c = x := by
      have := congrArg (fun l => l.head?) hab
      simpa using this.symm
    subst hc
    exact absurd (hcl c (by simp)) (by simp [hx])

theorem digitCh_isDigit (m : Nat) : (digitCh m).isDigit = true := by
  unfold digitCh
  split <;> decide

theorem natDigitsRev_digits (n : Nat) : ∀ c ∈ natDigitsRev n, c.isDigit = true := by
  induction n using Nat.strong_induction_on with
  | _ n ih =>
    cases n with
    | zero => intro c hc; simp [natDigitsRev] at hc
    | succ m =>
      intro c hc
      rw [natDigitsRev] at hc
      rcases List.mem_cons.mp hc with h | h
      · subst h; exact digitCh_isDigit _
      · exact ih ((m + 1) / 10) (Nat.div_lt_self (Nat.succ_pos m) (by norm_num)) c h

theorem natToChars_digits (n : Nat) : ∀ c ∈ natToChars n, c.isDigit = true := by
  intro c hc
  unfold natToChars at hc
  split at hc
  · simp at hc; subst hc; decide
  · exact natDigitsRev_digits n c (List.mem_reverse.mp hc)

theorem digit_ne_bar {c : Char} (h : c.isDigit = true) : c ≠ '|' := by
  obtain ⟨_, h2⟩ := isDigit_toNat h
  intro he
  subst he
  simp at h2

theorem bar_not_mem_natToChars (n : Nat) : '|' ∉ natToChars n := by
  intro hmem
  exact digit_ne_bar (natToChars_digits n '|' hmem) rfl

theorem bar_not_mem_pad2 (n : Nat) : '|' ∉ pad2 n := by
  intro hmem
  unfold pad2 at hmem
  split at hmem
  · rcases List.mem_cons.mp hmem with h | h
    · exact absurd h.symm (by decide)
    · simp at h
      exact digit_ne_bar (digitCh_isDigit n) h.symm
  · exact bar_not_mem_natToChars n hmem

theorem not_mem_append_ch {c : Char} {a b : List Char} (ha : c ∉ a) (hb : c ∉ b) :
    c ∉ a ++ b := by
  intro h
  rcases List.mem_append.mp h with h | h
  · exact ha h
  · exact hb h

theorem not_mem_cons_ch {c x : Char} {l : List Char} (hx : c ≠ x) (hl : c ∉ l) :
    c ∉ x :: l := by
  intro h
  rcases List.mem_cons.mp h with h | h
  · exact hx h
  · exact hl h

theorem bar_not_mem_showEqTs (t : EqTimestamp) : '|' ∉ showEqTs t := by
  unfold showEqTs
  refine not_mem_append_ch ?_ (by decide)
  refine not_mem_append_ch ?_ (not_mem_cons_ch (by decide) (bar_not_mem_pad2 _))
  refine not_mem_append_ch ?_ (not_mem_cons_ch (by decide) (bar_not_mem_pad2 _))
  refine not_mem_append_ch ?_ (not_mem_cons_ch (by decide) (bar_not_mem_pad2 _))
  refine not_mem_append_ch ?_ (not_mem_cons_ch (by decide) (bar_not_mem_pad2 _))
  exact not_mem_append_ch (bar_not_mem_natToChars _)
    (not_mem_cons_ch (by decide) (bar_not_mem_pad2 _))

theorem bar_not_mem_showUTCopt (o : Option EqTimestamp) : '|' ∉ showUTCopt o := by
  cases o with
  | none => decide
  | some t => exact bar_not_mem_showEqTs t

/-! ### Wire-record parsing (the collectors' side of the `report()` contract) -/

/-- Split off the text before the first `|`; `none` if there is no `|`. -/
def splitBar : List Char → List Char × Option (List Char)
  | [] => ([], none)
  | c :: rest =>
    if c = '|' then ([], some rest)
    else
      let (a, r) := splitBar rest
      (c :: a, r)

/-- Parse an outbound event record by field positions: five `|`-separated
fields, the remainder (after the fifth separator) being the raw line.
Returns `(character_name, detector_id, description, utc_timestamp,
raw_line)`. -/
def parseReport (L : List Char) :
    Option (List Char × List Char × List Char × List Char × List Char) :=
  match splitBar L with
  | (_, none) => none
  | (_marker, some r1) =>
    match splitBar r1 with
    | (_, none) => none
    | (player, some r2) =>
      match splitBar r2 with
      | (_, none) => none
      | (pid, some r3) =>
        match splitBar r3 with
        | (_, none) => none
        | (desc, some r4) =>
          match splitBar r4 with
          | (_, none) => none
          | (utc, some raw) => some (player, pid, desc, utc, raw)

theorem splitBar_append {a r : List Char} (h : '|' ∉ a) :
    splitBar (a ++ '|' :: r) = (a, some r) := by
  induction a with
  | nil => simp [splitBar]
  | cons c cs ih =>
    have hc : c ≠ '|' := fun he => h (by simp [he])
    have hcs : '|' ∉ cs := fun hm => h (List.mem_cons_of_mem c hm)
    simp [splitBar, hc, ih hcs]

/-- Lemma: `parseReport` recovers the five fields from a well-formed record. -/
theorem parseReport_fields (m p i d u r : List Char)
    (hm : '|' ∉ m) (hp : '|' ∉ p) (hi : '|' ∉ i) (hd : '|' ∉ d) (hu : '|' ∉ u) :
    parseReport (m ++ '|' :: (p ++ '|' :: (i ++ '|' :: (d ++ '|' :: (u ++ '|' :: r))))) =
      some (p, i, d, u, r) := by
  unfold parseReport
  simp only [splitBar_append hm, splitBar_append hp, splitBar_append hi,
    splitBar_append hd, splitBar_append hu]

/-- Claim C9: if the `open()` call inside `EverquestLogFile.open` raises an
`OSError` (oracle `osOpen = none`), the method returns `False` and the
tailer state is completely unchanged: `char_name`, `filename`, the stored
file handle, the position and the parsing flag all keep their values (in
particular the parsing flag is not set). -/
theorem open_failure_is_atomic (st : ELFState) (cn fn : List Char)
    (se osk : Bool) (fz : Nat) :
    (elf_open st cn fn se none osk fz).1 = false ∧
      (elf_open st cn fn se none osk fz).2.1 = st ∧
      (elf_open st cn fn se none osk fz).2.1.char_name = st.char_name ∧
      (elf_open st cn fn se none osk fz).2.1.filename = st.filename ∧
      (elf_open st cn fn se none osk fz).2.1.file = st.file ∧
      (elf_open st cn fn se none osk fz).2.1.pos = st.pos ∧
      (elf_open st cn fn se none osk fz).2.1.parsing = st.parsing :=
  ⟨rfl, rfl, rfl, rfl, rfl, rfl, rfl⟩

/-- Claim C7: `report()` renders exactly the six fields — marker, character
name, detector id, description, UTC timestamp, raw matching line — in that
order separated by `|`, and parsing the rendered record back by field
positions recovers the `(character_name, detector_id, description,
utc_timestamp, raw_line)` tuple, provided the character name and the
description are `|`-free (every description the program builds is). -/
theorem report_round_trip (st : PTState)
    (hp : '|' ∉ st.parsing_player) (hd : '|' ∉ st.short_description) :
    pt_report st =
      "EQ__".data ++ '|' :: st.parsing_player ++ '|' :: natToChars st.parse_target_ID ++
        '|' :: st.short_description ++ '|' :: showUTCopt st.utc_datetime ++
        '|' :: showOptLine st.matching_line ∧
    parseReport (pt_report st) =
      some (st.parsing_player, natToChars st.parse_target_ID,
        st.short_description, showUTCopt st.utc_datetime,
        showOptLine st.matching_line) := by
  constructor
  · rfl
  · have e0 : pt_report st =
        "EQ__".data ++ '|' :: (st.parsing_player ++ '|' ::
          (natToChars st.parse_target_ID ++ '|' :: (st.short_description ++ '|' ::
            (showUTCopt st.utc_datetime ++ '|' :: showOptLine st.matching_line)))) := by
      unfold pt_report
      simp [List.append_assoc]
    rw [e0]
    exact parseReport_fields _ _ _ _ _ _ (by decide) hp
      (bar_not_mem_natToChars _) hd (bar_not_mem_showUTCopt _)

/-- Witness for C7 at a concrete detector state. -/
theorem report_round_trip_witness :
    ('|' ∉ (mkPT .gmotd 14 "GMOTD").parsing_player) ∧
      ('|' ∉ (mkPT .gmotd 14 "GMOTD").short_description) ∧
      parseReport (pt_report (mkPT .gmotd 14 "GMOTD")) =
        some ("Unknown".data, natToChars 14, "GMOTD".data, "None".data, "None".data) :=
  ⟨by decide, by decide, (report_round_trip (mkPT .gmotd 14 "GMOTD") (by decide) (by decide)).2⟩

/-! ### Claim C2: malformed timestamp prefixes -/

/-- A line whose first 26 characters are not a valid timestamp but whose
remainder (offset 27) matches the GMOTD trigger. -/
def badTsLine : List Char := List.replicate 27 'x' ++ "GUILD MOTD:".data

/-- Counterexample to claim C2: this malformed-timestamp line makes the
dispatch loop raise (the GMOTD detector matches, `_set_timestamps` calls
`strptime` on the junk prefix, and the `ValueError` propagates out of
`matches()` and out of the dispatch loop). -/
theorem malformed_ts_line_raises :
    parseEqTimestamp (badTsLine.take 26) = none ∧
      registry_process_line registryInit badTsLine = Except.error () := by
  constructor
  · rfl
  · rfl

theorem pt_matches_nilTrunc (st : PTState) (line : List Char)
    (h : line.drop 27 = []) : pt_matches st line = .ok (false, st) := by
  unfold pt_matches
  rw [h]
  obtain ⟨k, i, d, pn, pp, ml, u⟩ := st
  cases k <;> rfl

theorem registryGo_short (line : List Char) (h : line.drop 27 = []) :
    ∀ sts : List PTState, registryGo line sts = .ok ([], sts) := by
  intro sts
  induction sts with
  | nil => rfl
  | cons st rest ih =>
    unfold registryGo
    rw [pt_matches_nilTrunc st line h, ih]
    rfl

/-- Claim C2 (amended): for every line shorter than 27 characters, evaluating
the detectors raises no exception, emits no event, and leaves every detector
unchanged (the truncated line is empty and no trigger matches it).  Lines of
length ≥ 27 with a malformed timestamp whose remainder matches a trigger
instead raise out of the dispatch loop (`malformed_ts_line_raises`). -/
theorem short_line_no_events (sts : List PTState) (line : List Char)
    (h : line.length < 27) :
    registry_process_line sts line = .ok ([], sts) := by
  have hd : line.drop 27 = [] := List.drop_of_length_le (by omega)
  exact registryGo_short line hd sts

/-- Witness for the amended C2 at a concrete short line. -/
theorem short_line_no_events_witness :
    ("hi".data.length < 27) ∧
      registry_process_line registryInit "hi".data = .ok ([], registryInit) :=
  ⟨by decide, short_line_no_events registryInit "hi".data (by decide)⟩

/-! ### Claims C1 and C10: the Random detector -/

def rollLine1 : List Char := "**A Magic Die is rolled by Bob.".data

def rollLine2 : List Char :=
  "**It could have been any number from 1 to 100, but this time it turned up a 42.".data

def randomInit : PTState := mkPT .random 10 "Random!"

/-- Claim C1: feeding the announcer line then the result line (both with
well-formed 27-character timestamp prefixes) makes `matches()` return false
then true: the first line only caches the roller's name and yields no event,
the second produces the single event whose description contains
`Bob, 1-100, Value=42`, and the cached announcer name is cleared. -/
theorem random_two_line_correlation (ts1 ts2 : List Char)
    (h1 : ts1.length = 27) (h2 : ts2.length = 27) (t : EqTimestamp)
    (hp : parseEqTimestamp (ts2.take 26) = some t) :
    pt_matches randomInit (ts1 ++ rollLine1) =
      .ok (false, {randomInit with playername := some "Bob".data}) ∧
    pt_matches {randomInit with playername := some "Bob".data} (ts2 ++ rollLine2) =
      .ok (true, {randomInit with
        short_description := "Random roll: Bob, 1-100, Value=42".data,
        playername := none,
        matching_line := some (ts2 ++ rollLine2),
        utc_datetime := some t}) ∧
    "Bob, 1-100, Value=42".data <:+:
      ({randomInit with
        short_description := "Random roll: Bob, 1-100, Value=42".data} : PTState).short_description := by
  refine ⟨?_, ?_, by decide⟩
  · unfold pt_matches
    rw [List.drop_left' h1]
    rfl
  · unfold pt_matches
    rw [List.drop_left' h2]
    have e1 : dieRolledTrig rollLine2 = none := rfl
    have e2 : rollResultTrig rollLine2 =
        some [("low", "1".data), ("high", "100".data), ("value", "42".data)] := rfl
    have e3 : pt_hook {randomInit with playername := some "Bob".data}
        [("low", "1".data), ("high", "100".data), ("value", "42".data)] =
        (true, {randomInit with
          short_description := "Random roll: Bob, 1-100, Value=42".data,
          playername := none}) := rfl
    simp only [pt_matchesGo, e1, e2, e3]
    unfold pt_set_timestamps
    rw [take_append_of_le_len (by omega)]
    rw [hp]
    rfl

/-- Witness for C1 at the concrete timestamp prefix. -/
def eqTs0 : List Char := "[Sun Sep 18 15:22:41 2022] ".data

theorem random_two_line_correlation_witness :
    (eqTs0.length = 27) ∧
      (parseEqTimestamp (eqTs0.take 26) = some ⟨9, 18, 15, 22, 41, 2022⟩) ∧
      pt_matches randomInit (eqTs0 ++ rollLine1) =
        .ok (false, {randomInit with playername := some "Bob".data}) ∧
      pt_matches {randomInit with playername := some "Bob".data} (eqTs0 ++ rollLine2) =
        .ok (true, {randomInit with
          short_description := "Random roll: Bob, 1-100, Value=42".data,
          playername := none,
          matching_line := some (eqTs0 ++ rollLine2),
          utc_datetime := some ⟨9, 18, 15, 22, 41, 2022⟩}) := by
  refine ⟨by decide, by decide, ?_, ?_⟩
  · exact (random_two_line_correlation eqTs0 eqTs0 (by decide) (by decide)
      ⟨9, 18, 15, 22, 41, 2022⟩ (by decide)).1
  · exact (random_two_line_correlation eqTs0 eqTs0 (by decide) (by decide)
      ⟨9, 18, 15, 22, 41, 2022⟩ (by decide)).2.1

/-- The result-line remainder with arbitrary digit strings. -/
def rollRem (L H V : List Char) : List Char :=
  "**It could have been any number from ".data ++ L ++ " to ".data ++ H ++
    ", but this time it turned up a ".data ++ V ++ ".".data

/-- The result-line trigger parses out the three digit groups. -/
theorem rollResultTrig_eq (L H V : List Char)
    (hL : L ≠ []) (hLd : ∀ c ∈ L, c.isDigit)
    (hH : H ≠ []) (hHd : ∀ c ∈ H, c.isDigit)
    (hV : V ≠ []) (hVd : ∀ c ∈ V, c.isDigit) :
    rollResultTrig (rollRem L H V) = some [("low", L), ("high", H), ("value", V)] := by
  have kV : greedyAux Char.isDigit (matchLit ".".data) (V ++ ".".data) =
      some (V, []) :=
    greedyAux_boundary hV hVd (by decide) rfl
  have kH : greedyAux Char.isDigit
      (fun r4 => (matchLit ", but this time it turned up a ".data r4).bind fun r5 =>
        greedyAux Char.isDigit (matchLit ".".data) r5)
      (H ++ (", but this time it turned up a ".data ++ (V ++ ".".data))) =
      some (H, (V, [])) := by
    apply greedyAux_boundary hH hHd (by decide)
    show (matchLit ", but this time it turned up a ".data
        (", but this time it turned up a ".data ++ (V ++ ".".data))).bind _ = _
    rw [matchLit_self_append]
    simpa using kV
  have kL : greedyAux Char.isDigit
      (fun r2 => (matchLit " to ".data r2).bind fun r3 =>
        greedyAux Char.isDigit
          (fun r4 => (matchLit ", but this time it turned up a ".data r4).bind fun r5 =>
            greedyAux Char.isDigit (matchLit ".".data) r5) r3)
      (L ++ (" to ".data ++ (H ++ (", but this time it turned up a ".data ++
        (V ++ ".".data))))) = some (L, (H, (V, []))) := by
    apply greedyAux_boundary hL hLd (by decide)
    show (matchLit " to ".data
        (" to ".data ++ (H ++ (", but this time it turned up a ".data ++
          (V ++ ".".data))))).bind _ = _
    rw [matchLit_self_append]
    simpa using kH
  unfold rollResultTrig rollRem
  rw [show "**It could have been any number from ".data ++ L ++ " to ".data ++ H ++
      ", but this time it turned up a ".data ++ V ++ ".".data =
      "**It could have been any number from ".data ++ (L ++ (" to ".data ++
        (H ++ (", but this time it turned up a ".data ++ (V ++ ".".data)))))
    from by simp [List.append_assoc]]
  rw [matchLit_self_append]
  simp only [Option.some_bind]
  rw [kL]
  rfl

/-- Claim C10: a roll-result line processed with no cached announcer name
still matches: the Random detector accepts it and emits an event whose
description names `None` as the roller. -/
theorem uncached_roll_names_none (st : PTState) (hk : st.kind = .random)
    (hpn : st.playername = none) (ts : List Char) (hts : ts.length = 27)
    (t : EqTimestamp) (hp : parseEqTimestamp (ts.take 26) = some t)
    (L H V : List Char)
    (hL : L ≠ []) (hLd : ∀ c ∈ L, c.isDigit)
    (hH : H ≠ []) (hHd : ∀ c ∈ H, c.isDigit)
    (hV : V ≠ []) (hVd : ∀ c ∈ V, c.isDigit) :
    pt_matches st (ts ++ rollRem L H V) =
      .ok (true, {st with
        short_description := "Random roll: None, ".data ++ L ++ "-".data ++ H ++
          ", Value=".data ++ V,
        playername := none,
        matching_line := some (ts ++ rollRem L H V),
        utc_datetime := some t}) := by
  have e1 : dieRolledTrig (rollRem L H V) = none := by
    unfold dieRolledTrig rollRem
    rfl
  have elook : (([("low", L), ("high", H), ("value", V)] :
      List (String × List Char)).lookup "playername") = none := rfl
  have elow : (([("low", L), ("high", H), ("value", V)] :
      List (String × List Char)).lookup "low") = some L := rfl
  have ehigh : (([("low", L), ("high", H), ("value", V)] :
      List (String × List Char)).lookup "high") = some H := rfl
  have evalue : (([("low", L), ("high", H), ("value", V)] :
      List (String × List Char)).lookup "value") = some V := rfl
  unfold pt_matches
  rw [List.drop_left' hts, hk]
  show pt_matchesGo (ts ++ rollRem L H V) (rollRem L H V)
    [dieRolledTrig, rollResultTrig] false st = _
  simp only [pt_matchesGo, e1, rollResultTrig_eq L H V hL hLd hH hHd hV hVd,
    pt_hook, hk, elook, elow, ehigh, evalue, hpn]
  unfold pt_set_timestamps
  rw [take_append_of_le_len (by omega), hp]
  simp only [Option.map_some', pt_matchesGo]
  rfl

/-- Witness for C10 at concrete inputs. -/
theorem uncached_roll_names_none_witness :
    (randomInit.kind = .random) ∧ (randomInit.playername = none) ∧
      pt_matches randomInit (eqTs0 ++ rollRem "1".data "100".data "42".data) =
        .ok (true, {randomInit with
          short_description := "Random roll: None, 1-100, Value=42".data,
          playername := none,
          matching_line := some (eqTs0 ++ rollRem "1".data "100".data "42".data),
          utc_datetime := some ⟨9, 18, 15, 22, 41, 2022⟩}) := by
  refine ⟨rfl, rfl, ?_⟩
  exact uncached_roll_names_none randomInit rfl rfl eqTs0 (by decide)
    ⟨9, 18, 15, 22, 41, 2022⟩ (by decide) "1".data "100".data "42".data
    (by decide) (by decide) (by decide) (by decide) (by decide) (by decide)

/-! ### Claims C3 and C4: `open_latest` -/

/-- The head of the descending sort is an element of maximal mtime. -/
theorem sortFilesDesc_head (l : List (List Char × Nat)) (hne : l ≠ []) :
    ∃ h t, sortFilesDesc l = h :: t ∧ h ∈ l ∧ ∀ x ∈ l, x.2 ≤ h.2 := by
  induction l with
  | nil => exact absurd rfl hne
  | cons a l' ih =>
    cases l' with
    | nil =>
      refine ⟨a, [], rfl, by simp, ?_⟩
      intro x hx
      simp at hx
      simp [hx]
    | cons b l'' =>
      obtain ⟨h', t', hsort, hmem, hmax⟩ := ih (by simp)
      unfold sortFilesDesc at hsort ⊢
      simp only [List.foldr_cons] at hsort ⊢
      rw [hsort]
      unfold insertDesc
      by_cases hgt : a.2 > h'.2
      · rw [if_pos hgt]
        refine ⟨a, h' :: t', rfl, by simp, ?_⟩
        intro x hx
        rcases List.mem_cons.mp hx with h | h
        · simp [h]
        · exact Nat.le_trans (hmax x h) (Nat.le_of_lt hgt)
      · rw [if_neg hgt]
        refine ⟨h', insertDesc a t', rfl, List.mem_cons_of_mem a hmem, ?_⟩
        intro x hx
        rcases List.mem_cons.mp hx with h | h
        · simp [h]; omega
        · exact hmax x h

/-- The character-name regex recovers exactly the embedded name from a
well-formed log filename: the greedy `[\w ]+` group cannot extend past the
name, because whatever remains would be too short for `_<server>` plus the
dot (any character) plus `txt`. -/
theorem extract_charname_eq (base logs server nm : List Char)
    (hnm : nm ≠ []) (hnmc : ∀ c ∈ nm, isWordSpace c) :
    extract_charname base logs server
      (base ++ logs ++ "eqlog_".data ++ nm ++ "_".data ++ server ++ ".txt".data) =
      some nm := by
  have hshape : base ++ logs ++ "eqlog_".data ++ nm ++ "_".data ++ server ++ ".txt".data =
      (base ++ logs) ++ ("eqlog_".data ++ (nm ++ ('_' :: (server ++ ('.' :: "txt".data))))) := by
    simp [List.append_assoc]
  rw [hshape]
  unfold extract_charname
  rw [matchLit_self_append, Option.some_bind, matchLit_self_append, Option.some_bind]
  have hk : (fun r3 => (matchLit ('_' :: server) r3).bind fun r4 =>
      match r4 with
      | [] => none
      | _ :: r5 => (matchLit "txt".data r5).map fun _ => ())
      ('_' :: (server ++ ('.' :: "txt".data))) = some () := by
    show (matchLit ('_' :: server) (('_' :: server) ++ ('.' :: "txt".data))).bind _ = _
    rw [matchLit_self_append]
    rfl
  have hH : ∀ a b, ('_' :: (server ++ ('.' :: "txt".data))) = a ++ b → a ≠ [] →
      (∀ c ∈ a, isWordSpace c) → ((fun r3 => (matchLit ('_' :: server) r3).bind fun r4 =>
        match r4 with
        | [] => none
        | _ :: r5 => (matchLit "txt".data r5).map fun _ => ()) b) = none := by
    intro a b hab ha _
    show ((matchLit ('_' :: server) b).bind fun r4 =>
      match r4 with
      | [] => none
      | _ :: r5 => (matchLit "txt".data r5).map fun _ => ()) = none
    cases hmb : matchLit ('_' :: server) b with
    | none => simp
    | some r4 =>
      cases r4 with
      | nil => simp
      | cons c r5 =>
        cases hr5 : matchLit "txt".data r5 with
        | none => simp [hr5]
        | some r6 =>
          exfalso
          have e1 := matchLit_length hmb
          have e2 := matchLit_length hr5
          have etot : ('_' :: (server ++ ('.' :: "txt".data))).length =
              a.length + b.length := by
            rw [hab]
            simp
          have ha1 : 1 ≤ a.length := by
            cases a with
            | nil => exact absurd rfl ha
            | cons x xs => simp
          simp at etot e1 e2
          omega
  rw [greedyAux_split hnm hnmc hk hH]
  rfl

/-- Characters that the constructed charname regex treats as literals
(everything except regex metacharacters; backslashes are escaped by the
source and therefore also literal). -/
def isPlainRegexChar (c : Char) : Bool :=
  !(c ∈ ['.', '^', '$', '*', '+', '?', '{', '}', '[', ']', '(', ')', '|'])

/-- Claim C3: with a non-empty set of convention-named log files whose
newest (strictly largest mtime) file embeds the character name `nm`, an
inactive tailer's `open_latest` opens exactly that file and sets the tracked
character name to exactly `nm` (names may contain spaces and word
characters).  The `isPlainRegexChar` hypothesis records that the directory
and server fragments interpolated into the regex carry no metacharacters
(besides the backslashes the source escapes), which is what makes the
literal-matching model of the constructed regex faithful. -/
theorem open_latest_selects_latest (st : ELFState) (glob : List (List Char × Nat))
    (nm : List Char) (t3 fid fz : Nat) (se : Bool)
    (hnm : nm ≠ []) (hnmc : ∀ c ∈ nm, isWordSpace c)
    (hplain : ∀ c ∈ st.base_directory ++ st.logs_directory ++ st.server_name,
      isPlainRegexChar c ∨ c = '\\')
    (hmem : (st.base_directory ++ st.logs_directory ++ "eqlog_".data ++ nm ++
      "_".data ++ st.server_name ++ ".txt".data, t3) ∈ glob)
    (hmax : ∀ x ∈ glob, x ≠ (st.base_directory ++ st.logs_directory ++
      "eqlog_".data ++ nm ++ "_".data ++ st.server_name ++ ".txt".data, t3) →
      x.2 < t3)
    (hnp : st.parsing = false) :
    open_latest st glob se (some fid) true fz =
      .ok (true, {st with
        char_name := nm,
        filename := st.base_directory ++ st.logs_directory ++ "eqlog_".data ++
          nm ++ "_".data ++ st.server_name ++ ".txt".data,
        file := some fid,
        pos := if se then fz else 0,
        parsing := true},
        [FileOp.openF (st.base_directory ++ st.logs_directory ++ "eqlog_".data ++
          nm ++ "_".data ++ st.server_name ++ ".txt".data)]) := by
  set f3 := st.base_directory ++ st.logs_directory ++ "eqlog_".data ++ nm ++
    "_".data ++ st.server_name ++ ".txt".data with hf3
  have hne : glob ≠ [] := by
    intro h
    rw [h] at hmem
    simp at hmem
  obtain ⟨h, tl, hsort, hmemh, hmaxh⟩ := sortFilesDesc_head glob hne
  have hh : h = (f3, t3) := by
    by_contra hne2
    have hlt := hmax h hmemh hne2
    have hge := hmaxh (f3, t3) hmem
    omega
  subst hh
  unfold open_latest
  rw [hsort]
  simp only [hf3, hnp,
    extract_charname_eq st.base_directory st.logs_directory st.server_name nm hnm hnmc]
  simp [elf_open]

def elfW : ELFState :=
  ⟨"c:\\eq\\".data, "logs\\".data, "P1999Green".data, "Unknown".data,
    "none".data, none, 0, false⟩

def fileW (nm : String) : List Char :=
  "c:\\eq\\".data ++ "logs\\".data ++ "eqlog_".data ++ nm.data ++ "_".data ++
    "P1999Green".data ++ ".txt".data

/-- Witness for C3 at a concrete three-file directory with mtimes 1 < 2 < 3. -/
theorem open_latest_selects_latest_witness :
    ("Bob Two".data ≠ [] ∧ (∀ c ∈ "Bob Two".data, isWordSpace c) ∧
      elfW.parsing = false ∧
      (fileW "Bob Two", 3) ∈ [(fileW "Al", 1), (fileW "Cy", 2), (fileW "Bob Two", 3)]) ∧
    open_latest elfW [(fileW "Al", 1), (fileW "Cy", 2), (fileW "Bob Two", 3)]
        true (some 7) true 99 =
      .ok (true, {elfW with
        char_name := "Bob Two".data,
        filename := elfW.base_directory ++ elfW.logs_directory ++ "eqlog_".data ++
          "Bob Two".data ++ "_".data ++ elfW.server_name ++ ".txt".data,
        file := some 7,
        pos := if true then 99 else 0,
        parsing := true},
        [FileOp.openF (elfW.base_directory ++ elfW.logs_directory ++ "eqlog_".data ++
          "Bob Two".data ++ "_".data ++ elfW.server_name ++ ".txt".data)]) := by
  refine ⟨⟨by decide, by decide, rfl, by decide⟩, ?_⟩
  exact open_latest_selects_latest elfW
    [(fileW "Al", 1), (fileW "Cy", 2), (fileW "Bob Two", 3)]
    "Bob Two".data 3 7 99 true (by decide) (by decide) (by decide)
    (by decide) (by decide) rfl

/-- Claim C4: when the tailer is already parsing the file with the most
recent mtime, `open_latest` returns `False`, performs no file-handle
operation (empty `FileOp` trace) and leaves the state — filename, char_name,
handle, position, parsing flag — exactly unchanged; and with zero matching
files it raises the no-log-files `ValueError` instead of returning. -/
theorem open_latest_noop_and_empty_error (st : ELFState)
    (glob : List (List Char × Nat)) (se osk : Bool) (osOpen : Option Nat)
    (fz t : Nat) (rest : List (List Char × Nat)) (cn : List Char)
    (hp : st.parsing = true)
    (hsort : sortFilesDesc glob = (st.filename, t) :: rest)
    (hex : extract_charname st.base_directory st.logs_directory st.server_name
      st.filename = some cn) :
    open_latest st glob se osOpen osk fz = .ok (false, st, []) ∧
      open_latest st [] se osOpen osk fz = .error .valueError := by
  constructor
  · unfold open_latest
    rw [hsort]
    simp [hex, hp]
  · rfl

/-- Witness for C4 at a concrete already-current state. -/
theorem open_latest_noop_and_empty_error_witness :
    (({elfW with filename := fileW "Bob Two", parsing := true} : ELFState).parsing = true ∧
      sortFilesDesc [(fileW "Al", 1), (fileW "Bob Two", 3)] =
        [(fileW "Bob Two", 3), (fileW "Al", 1)] ∧
      extract_charname elfW.base_directory elfW.logs_directory elfW.server_name
        (fileW "Bob Two") = some "Bob Two".data) ∧
    open_latest {elfW with filename := fileW "Bob Two", parsing := true}
        [(fileW "Al", 1), (fileW "Bob Two", 3)] true (some 7) true 99 =
      .ok (false, {elfW with filename := fileW "Bob Two", parsing := true}, []) ∧
    open_latest {elfW with filename := fileW "Bob Two", parsing := true}
        [] true (some 7) true 99 = .error .valueError := by
  refine ⟨⟨rfl, by decide, by decide⟩, ?_⟩
  exact open_latest_noop_and_empty_error
    {elfW with filename := fileW "Bob Two", parsing := true}
    [(fileW "Al", 1), (fileW "Bob Two", 3)] true true (some 7) 99 3
    [(fileW "Al", 1)] "Bob Two".data rfl (by decide) (by decide)

/-! ### Claim C5: strict max-melee update, idempotent re-delivery -/

def boneyLine : List Char := "Boney hits a bear for 51 points of damage.".data

def boneyPet (mm r : Nat) (lv : ℚ) : Pet :=
  ⟨some "Boney".data, false, false, invokeDeathSpell, mm, r, lv⟩

/-- The pet after the 51-damage line: max_melee 51, and rank 3 / level 39
from the Invoke Death stats entry whose max_melee equals 51. -/
def boneyUpd : Pet := ⟨some "Boney".data, false, false, invokeDeathSpell, 51, 3, 39⟩

/-- Claim C5: for a Named-state tracker (name recorded, no armed lifetap), a
melee damage line attributed to the pet updates `max_melee` only when the
damage is strictly greater than the current maximum, setting rank/level from
the stats entry whose max_melee equals the new maximum; when the damage does
not exceed the maximum — in particular when re-delivering the same line
after the update — no field changes and no notification is re-sent. -/
theorem melee_update_strict_and_idempotent (mm r : Nat) (lv : ℚ)
    (A : List Pet) (cn ts : List Char) (hts : ts.length = 27) :
    (mm < 51 → petStep ⟨some (boneyPet mm r lv), A, cn⟩ (ts ++ boneyLine) =
      (⟨some boneyUpd, A, cn⟩,
        [Notif.pet boneyUpd, Notif.text "*Identified via max melee damage*".data])) ∧
    (51 ≤ mm → petStep ⟨some (boneyPet mm r lv), A, cn⟩ (ts ++ boneyLine) =
      (⟨some (boneyPet mm r lv), A, cn⟩, [])) ∧
    petStep ⟨some boneyUpd, A, cn⟩ (ts ++ boneyLine) = (⟨some boneyUpd, A, cn⟩, []) := by
  have hdrop : (ts ++ boneyLine).drop 27 = boneyLine := List.drop_left' hts
  have e1 : stepLost ⟨some (boneyPet mm r lv), A, cn⟩ boneyLine =
      (⟨some (boneyPet mm r lv), A, cn⟩, []) := rfl
  have e2 : stepCast ⟨some (boneyPet mm r lv), A, cn⟩ boneyLine =
      (⟨some (boneyPet mm r lv), A, cn⟩, []) := rfl
  have e3 : stepName ⟨some (boneyPet mm r lv), A, cn⟩ boneyLine =
      (⟨some (boneyPet mm r lv), A, cn⟩, []) := rfl
  have e4 : stepLifetap ⟨some (boneyPet mm r lv), A, cn⟩ boneyLine =
      (⟨some (boneyPet mm r lv), A, cn⟩, []) := rfl
  have e5 : stepSmile ⟨some (boneyPet mm r lv), A, cn⟩ boneyLine =
      (⟨some (boneyPet mm r lv), A, cn⟩, []) := rfl
  have em : stepMelee ⟨some (boneyPet mm r lv), A, cn⟩ boneyLine =
      if 51 > mm then
        (⟨some boneyUpd, A, cn⟩,
          [Notif.pet boneyUpd, Notif.text "*Identified via max melee damage*".data])
      else (⟨some (boneyPet mm r lv), A, cn⟩, []) := rfl
  have e7 : ∀ s : Tracker, stepReset s boneyLine = (s, []) := fun s => rfl
  refine ⟨?_, ?_, ?_⟩
  · intro h
    unfold petStep petStepT
    rw [hdrop]
    simp only [e1, e2, e3, e4, e5, em, if_pos h, e7]
    rfl
  · intro h
    unfold petStep petStepT
    rw [hdrop]
    simp only [e1, e2, e3, e4, e5, em, e7]
    rw [if_neg (by omega)]
    simp only [e7]
    rfl
  · unfold petStep petStepT
    rw [hdrop]
    rfl

/-- Witness for C5 at a concrete fresh-named state. -/
theorem melee_update_strict_and_idempotent_witness :
    (eqTs0.length = 27 ∧ (0 : Nat) < 51) ∧
      petStep ⟨some (boneyPet 0 0 0), [], "Unknown".data⟩ (eqTs0 ++ boneyLine) =
        (⟨some boneyUpd, [], "Unknown".data⟩,
          [Notif.pet boneyUpd, Notif.text "*Identified via max melee damage*".data]) ∧
      petStep ⟨some boneyUpd, [], "Unknown".data⟩ (eqTs0 ++ boneyLine) =
        (⟨some boneyUpd, [], "Unknown".data⟩, []) :=
  ⟨⟨by decide, by decide⟩,
    (melee_update_strict_and_idempotent 0 0 0 [] "Unknown".data eqTs0 (by decide)).1
      (by decide),
    (melee_update_strict_and_idempotent 0 0 0 [] "Unknown".data eqTs0 (by decide)).2.2⟩

/-! ### Claim C6: charmed-pet level estimation formula -/

/-- No suffix strictly inside the damage digits or the tail can satisfy the
melee continuation (there is no earlier ` for ` followed by digits). -/
theorem meleeCont_none_suffix :
    ∀ s : List Char, (∀ c ∈ s, c.isDigit) →
      ∀ b, b <:+ (s ++ " points of damage.".data) → meleeCont b = none := by
  intro s
  induction s with
  | nil =>
    intro _ b hb
    have hmem : b ∈ (" points of damage.".data).tails := by
      rw [List.mem_tails]
      simpa using hb
    have hall : ∀ x ∈ (" points of damage.".data).tails, meleeCont x = none := by decide
    exact hall b hmem
  | cons d s' ih =>
    intro hdig b hb
    rw [List.cons_append, List.suffix_cons_iff] at hb
    rcases hb with hb | hb
    · subst hb
      have hd : d.isDigit = true := hdig d (by simp)
      have h1 : matchLitCI " for ".data (d :: (s' ++ " points of damage.".data)) = none := by
        show (if lowerCh ' ' = lowerCh d then
          matchLitCI "for ".data (s' ++ " points of damage.".data) else none) = none
        rw [if_neg (lowerCh_digit_ne_space hd)]
      unfold meleeCont
      rw [h1]
      rfl
    · exact ih (fun c hc => hdig c (List.mem_cons_of_mem d hc)) b hb

/-- The melee continuation succeeds exactly at the target-group boundary,
capturing the full digit group. -/
theorem meleeCont_boundary (s : List Char) (hs : s ≠ []) (hsd : ∀ c ∈ s, c.isDigit) :
    meleeCont (" for ".data ++ (s ++ " points of damage.".data)) = some s := by
  unfold meleeCont
  rw [matchLitCI_self_append]
  simp only [Option.some_bind]
  have hg : greedyAux Char.isDigit meleeDamageTail (s ++ " points of damage.".data) =
      some (s, ()) := by
    apply greedyAux_boundary hs hsd (by decide)
    rfl
  rw [hg]
  rfl

/-- With a digit-string damage group, the melee regex on
`Charmy hits a bear for <s> points of damage.` captures target `a bear` and
damage `s`. -/
theorem meleeMatch_charmy (s : List Char) (hs : s ≠ []) (hsd : ∀ c ∈ s, c.isDigit) :
    meleeMatch "Charmy".data
      ("Charmy hits a bear for ".data ++ s ++ " points of damage.".data) =
      some ("a bear".data, s) := by
  have hshape : "Charmy hits a bear for ".data ++ s ++ " points of damage.".data =
      ("Charmy".data ++ [' ']) ++ ("hits".data ++ ([' '] ++ ("a bear".data ++
        (" for ".data ++ (s ++ " points of damage.".data))))) := rfl
  rw [hshape]
  unfold meleeMatch
  rw [matchLitCI_self_append]
  simp only [Option.some_bind]
  have hverb : matchVerb meleeVerbs ("hits".data ++ ([' '] ++ ("a bear".data ++
      (" for ".data ++ (s ++ " points of damage.".data))))) =
      some ([' '] ++ ("a bear".data ++ (" for ".data ++ (s ++ " points of damage.".data)))) := by
    show (match matchLitCI "hits".data ("hits".data ++ ([' '] ++ ("a bear".data ++
      (" for ".data ++ (s ++ " points of damage.".data))))) with
      | some r => some r
      | none => matchVerb ["slashes".data, "pierces".data, "crushes".data, "claws".data,
          "bites".data, "stings".data, "mauls".data, "gores".data, "punches".data]
          ("hits".data ++ ([' '] ++ ("a bear".data ++
            (" for ".data ++ (s ++ " points of damage.".data)))))) = _
    rw [matchLitCI_self_append]
  rw [hverb]
  simp only [Option.some_bind]
  rw [matchLitCI_self_append]
  simp only [Option.some_bind]
  have hsplit : greedyAux isWSB meleeCont ("a bear".data ++
      (" for ".data ++ (s ++ " points of damage.".data))) = some ("a bear".data, s) := by
    apply greedyAux_split (by decide) (by decide) (meleeCont_boundary s hs hsd)
    intro a b hab ha hcl
    rcases List.exists_cons_of_ne_nil ha with ⟨c1, a1, rfl⟩
    rw [List.cons_append] at hab
    have hc1 : ' ' = c1 := by
      have := congrArg (fun l => l.headI) hab
      simpa using this
    subst hc1
    have hab1 : "for ".data ++ (s ++ " points of damage.".data) = a1 ++ b := by
      have := congrArg List.tail hab
      simpa using this
    cases a1 with
    | nil =>
      have hb : b = "for ".data ++ (s ++ " points of damage.".data) := by
        simpa using hab1.symm
      rw [hb]
      unfold meleeCont
      have h1 : matchLitCI " for ".data ("for ".data ++ (s ++ " points of damage.".data)) = none := by
        show (if lowerCh ' ' = lowerCh 'f' then
          matchLitCI "for ".data ("or ".data ++ (s ++ " points of damage.".data)) else none) = none
        rw [if_neg (by decide)]
      rw [h1]
      rfl
    | cons c2 a2 =>
      rw [List.cons_append] at hab1
      have hc2 : 'f' = c2 := by
        have := congrArg (fun l => l.headI) hab1
        simpa using this
      subst hc2
      have hab2 : "or ".data ++ (s ++ " points of damage.".data) = a2 ++ b := by
        have := congrArg List.tail hab1
        simpa using this
      cases a2 with
      | nil =>
        have hb : b = "or ".data ++ (s ++ " points of damage.".data) := by
          simpa using hab2.symm
        rw [hb]
        unfold meleeCont
        have h1 : matchLitCI " for ".data ("or ".data ++ (s ++ " points of damage.".data)) = none := by
          show (if lowerCh ' ' = lowerCh 'o' then
            matchLitCI "for ".data ("r ".data ++ (s ++ " points of damage.".data)) else none) = none
          rw [if_neg (by decide)]
        rw [h1]
        rfl
      | cons c3 a3 =>
        rw [List.cons_append] at hab2
        have hc3 : 'o' = c3 := by
          have := congrArg (fun l => l.headI) hab2
          simpa using this
        subst hc3
        have hab3 : "r ".data ++ (s ++ " points of damage.".data) = a3 ++ b := by
          have := congrArg List.tail hab2
          simpa using this
        cases a3 with
        | nil =>
          have hb : b = "r ".data ++ (s ++ " points of damage.".data) := by
            simpa using hab3.symm
          rw [hb]
          unfold meleeCont
          have h1 : matchLitCI " for ".data ("r ".data ++ (s ++ " points of damage.".data)) = none := by
            show (if lowerCh ' ' = lowerCh 'r' then
              matchLitCI "for ".data (" ".data ++ (s ++ " points of damage.".data)) else none) = none
            rw [if_neg (by decide)]
          rw [h1]
          rfl
        | cons c4 a4 =>
          rw [List.cons_append] at hab3
          have hc4 : 'r' = c4 := by
            have := congrArg (fun l => l.headI) hab3
            simpa using this
          subst hc4
          have hab4 : " ".data ++ (s ++ " points of damage.".data) = a4 ++ b := by
            have := congrArg List.tail hab3
            simpa using this
          cases a4 with
          | nil =>
            have hb : b = " ".data ++ (s ++ " points of damage.".data) := by
              simpa using hab4.symm
            rcases List.exists_cons_of_ne_nil hs with ⟨d0, s0, rfl⟩
            have hd0 : d0.isDigit = true := hsd d0 (by simp)
            rw [hb]
            unfold meleeCont
            have h1 : matchLitCI " for ".data
                (" ".data ++ ((d0 :: s0) ++ " points of damage.".data)) = none := by
              show (if lowerCh ' ' = lowerCh ' ' then
                matchLitCI "for ".data ((d0 :: s0) ++ " points of damage.".data) else none) = none
              rw [if_pos rfl]
              show (if lowerCh 'f' = lowerCh d0 then
                matchLitCI "or ".data (s0 ++ " points of damage.".data) else none) = none
              rw [if_neg ?hne]
              case hne =>
                rw [lowerCh_digit hd0]
                show ('f' : Char) ≠ d0
                intro he
                rw [← he] at hd0
                simp [Char.isDigit] at hd0
            rw [h1]
            rfl
          | cons c5 a5 =>
            rw [List.cons_append] at hab4
            have hc5 : ' ' = c5 := by
              have := congrArg (fun l => l.headI) hab4
              simpa using this
            subst hc5
            have hab5 : s ++ " points of damage.".data = a5 ++ b := by
              have := congrArg List.tail hab4
              simpa using this
            exact meleeCont_none_suffix s hsd b ⟨a5, hab5.symm⟩
  rw [hsplit]
  rfl

theorem leaderMatch_none {tr : List Char} (h : apos ∉ tr) : leaderMatch tr = none := by
  cases he : leaderMatch tr with
  | none => rfl
  | some pr =>
    exfalso
    unfold leaderMatch at he
    rcases Option.map_eq_some'.mp he with ⟨gv, hgv, _⟩
    obtain ⟨g, v⟩ := gv
    obtain ⟨_, hk, _, _⟩ := greedyAux_sound hgv
    rcases Option.bind_eq_some.mp hk with ⟨r2, hr2, _⟩
    have hmem : apos ∈ tr.drop g.length := matchLit_mem hr2 (by simp)
    exact h (List.mem_of_mem_drop hmem)

theorem attackMatch_none {tr : List Char} (h : apos ∉ tr) : attackMatch tr = none := by
  cases he : attackMatch tr with
  | none => rfl
  | some pr =>
    exfalso
    unfold attackMatch at he
    rcases Option.map_eq_some'.mp he with ⟨gv, hgv, _⟩
    obtain ⟨g, v⟩ := gv
    obtain ⟨_, hk, _, _⟩ := greedyAux_sound hgv
    rcases Option.bind_eq_some.mp hk with ⟨r2, hr2, _⟩
    have hmem : apos ∈ tr.drop g.length := matchLit_mem hr2 (by simp)
    exact h (List.mem_of_mem_drop hmem)

theorem stepReset_no_apos (st : Tracker) (tr : List Char) (h : apos ∉ tr) :
    stepReset st tr = (st, []) := by
  unfold stepReset
  rw [leaderMatch_none h, attackMatch_none h]
  rfl

def charmyPet (mm r : Nat) (lv : ℚ) : Pet :=
  ⟨some "Charmy".data, false, false, charmPetSpell, mm, r, lv⟩

def charmUpd (d r : Nat) : Pet :=
  ⟨some "Charmy".data, false, false, charmPetSpell, d, r,
    if d ≤ 60 then (d : ℚ) / 2 else ((d : ℚ) + 60) / 4⟩


def charmyLine (s : List Char) : List Char :=
  "Charmy hits a bear for ".data ++ s ++ " points of damage.".data

/-- The melee block on the charmed pet: new maximum `d`, no stats-table hit
(the CharmPet table has only the zero entry), then the two-piece level
formula. -/
theorem stepMelee_charm (mm r : Nat) (lv : ℚ) (A : List Pet) (cn s : List Char)
    (hs : s ≠ []) (hsd : ∀ c ∈ s, c.isDigit) (d : Nat)
    (hd : parseDigits s = d) (hgt : mm < d) :
    stepMelee ⟨some (charmyPet mm r lv), A, cn⟩ (charmyLine s) =
      (⟨some (charmUpd d r), A, cn⟩,
        [Notif.pet (charmUpd d r), Notif.text "*Identified via max melee damage*".data]) := by
  unfold charmyLine stepMelee charmyPet
  simp only [showOptName, meleeMatch_charmy s hs hsd, hd]
  rw [if_pos (by omega : d > mm)]
  simp only [meleeScanGo, charmPetSpell, mkStats]
  rw [if_neg (by omega : ¬((0 : Nat) = d))]
  simp only [meleeScanGo]
  simp only [if_true, charmUpd, charmPetSpell, mkStats]

/-- Claim C6: when the current pet is the generic `CharmPet` placeholder and
a melee line establishes a new maximum damage `d` (any digit string `s` with
value `d`), the tracker sets the pet's level to `d/2` when `d ≤ 60` and to
`(d+60)/4` otherwise, with exact (rational) arithmetic as written. -/
theorem charm_level_formula (mm r : Nat) (lv : ℚ) (A : List Pet)
    (cn ts s : List Char) (hts : ts.length = 27)
    (hs : s ≠ []) (hsd : ∀ c ∈ s, c.isDigit)
    (d : Nat) (hd : parseDigits s = d) (hgt : mm < d) :
    petStep ⟨some (charmyPet mm r lv), A, cn⟩ (ts ++ charmyLine s) =
      (⟨some (charmUpd d r), A, cn⟩,
        [Notif.pet (charmUpd d r), Notif.text "*Identified via max melee damage*".data]) ∧
    (charmUpd d r).pet_level = (if d ≤ 60 then (d : ℚ) / 2 else ((d : ℚ) + 60) / 4) := by
  have hdrop : (ts ++ charmyLine s).drop 27 = charmyLine s := List.drop_left' hts
  have hna : apos ∉ charmyLine s := by
    intro hm
    unfold charmyLine at hm
    rcases List.mem_append.mp hm with hm | hm
    · rcases List.mem_append.mp hm with hm | hm
      · revert hm; decide
      · exact absurd rfl (digit_ne_apos (hsd apos hm))
    · revert hm; decide
  have e1 : stepLost ⟨some (charmyPet mm r lv), A, cn⟩ (charmyLine s) =
      (⟨some (charmyPet mm r lv), A, cn⟩, []) := rfl
  have e2 : stepCast ⟨some (charmyPet mm r lv), A, cn⟩ (charmyLine s) =
      (⟨some (charmyPet mm r lv), A, cn⟩, []) := rfl
  have e3 : stepName ⟨some (charmyPet mm r lv), A, cn⟩ (charmyLine s) =
      (⟨some (charmyPet mm r lv), A, cn⟩, []) := rfl
  have e4 : stepLifetap ⟨some (charmyPet mm r lv), A, cn⟩ (charmyLine s) =
      (⟨some (charmyPet mm r lv), A, cn⟩, []) := rfl
  have e5 : stepSmile ⟨some (charmyPet mm r lv), A, cn⟩ (charmyLine s) =
      (⟨some (charmyPet mm r lv), A, cn⟩, []) := rfl
  have em := stepMelee_charm mm r lv A cn s hs hsd d hd hgt
  have e7 : stepReset ⟨some (charmUpd d r), A, cn⟩ (charmyLine s) =
      (⟨some (charmUpd d r), A, cn⟩, []) := stepReset_no_apos _ _ hna
  constructor
  · unfold petStep petStepT
    rw [hdrop]
    simp only [e1, e2, e3, e4, e5, em, e7]
    rfl
  · rfl

/-- Witness for C6 at damage 70 (level `(70+60)/4 = 32.5`). -/
theorem charm_level_formula_witness :
    (eqTs0.length = 27 ∧ ("70".data : List Char) ≠ [] ∧ parseDigits "70".data = 70 ∧
      (0 : Nat) < 70) ∧
      petStep ⟨some (charmyPet 0 4 7), [], "Unknown".data⟩ (eqTs0 ++ charmyLine "70".data) =
        (⟨some (charmUpd 70 4), [], "Unknown".data⟩,
          [Notif.pet (charmUpd 70 4), Notif.text "*Identified via max melee damage*".data]) ∧
      (charmUpd 70 4).pet_level = 130 / 4 := by
  refine ⟨⟨by decide, by decide, by decide, by decide⟩, ?_, ?_⟩
  · exact (charm_level_formula 0 4 7 [] "Unknown".data eqTs0 "70".data (by decide)
      (by decide) (by decide) 70 (by decide) (by decide)).1
  · norm_num [charmUpd]

/-! ### Claim C8: no rank/level announcement while the name is pending -/

/-- The tracker invariant: a pending-name pet has no recorded name (its
formatted patterns therefore begin with the literal `None`) and no armed
lifetap. -/
def TrackerInv (st : Tracker) : Prop :=
  ∀ p, st.current_pet = some p → p.name_pending = true →
    p.pet_name = none ∧ p.lifetap_pending = false

/-- Every pet object pushed to the notification surface has its name
recorded. -/
def pendFree (ns : List Notif) : Prop :=
  ∀ p, Notif.pet p ∈ ns → p.name_pending = false

theorem pendFree_nil : pendFree [] := by
  intro p hp
  simp at hp

theorem pendFree_append {a b : List Notif} (ha : pendFree a) (hb : pendFree b) :
    pendFree (a ++ b) := by
  intro p hp
  rcases List.mem_append.mp hp with h | h
  · exact ha p h
  · exact hb p h

theorem stepLost_ok (st : Tracker) (tr : List Char) (hI : TrackerInv st) :
    TrackerInv (stepLost st tr).1 ∧ pendFree (stepLost st tr).2 := by
  unfold stepLost
  split
  · exact ⟨hI, pendFree_nil⟩
  · dsimp only
    split
    · constructor
      · intro q hq
        simp at hq
      · intro q hq
        simp at hq
    · exact ⟨hI, pendFree_nil⟩

theorem stepCast_ok (st : Tracker) (tr : List Char) (hI : TrackerInv st) :
    TrackerInv (stepCast st tr).1 ∧ pendFree (stepCast st tr).2 := by
  unfold stepCast
  split
  · exact ⟨hI, pendFree_nil⟩
  · split
    · exact ⟨hI, pendFree_nil⟩
    · constructor
      · intro q hq _
        simp at hq
        subst hq
        exact ⟨rfl, rfl⟩
      · intro q hq
        simp at hq

theorem stepName_ok (st : Tracker) (tr : List Char) (hI : TrackerInv st) :
    TrackerInv (stepName st tr).1 ∧ pendFree (stepName st tr).2 := by
  unfold stepName
  split
  · exact ⟨hI, pendFree_nil⟩
  · split
    · split
      · exact ⟨hI, pendFree_nil⟩
      · constructor
        · intro q hq hqp
          simp at hq
          subst hq
          simp at hqp
        · intro q hq
          simp at hq
    · exact ⟨hI, pendFree_nil⟩

theorem lifetapScanGo_ok (dmg : Nat) :
    ∀ (l : List PetStats) (q : Pet) (ns : List Notif),
      q.name_pending = false → pendFree ns →
      (lifetapScanGo dmg l q ns).1.name_pending = false ∧
        pendFree (lifetapScanGo dmg l q ns).2 := by
  intro l
  induction l with
  | nil => intro q ns hq hns; exact ⟨hq, hns⟩
  | cons ps rest ih =>
    intro q ns hq hns
    unfold lifetapScanGo
    split
    · apply ih
      · exact hq
      · intro p hp
        rcases List.mem_append.mp hp with h | h
        · exact hns p h
        · simp at h
          subst h
          exact hq
    · exact ih q ns hq hns

theorem stepLifetap_ok (st : Tracker) (tr : List Char) (hI : TrackerInv st) :
    TrackerInv (stepLifetap st tr).1 ∧ pendFree (stepLifetap st tr).2 := by
  unfold stepLifetap
  split
  · exact ⟨hI, pendFree_nil⟩
  · rename_i p hcp
    split
    · rename_i hltp
      split
      · exact ⟨hI, pendFree_nil⟩
      · rename_i pr t ds hm
        have hpend : p.name_pending = false := by
          by_cases hp : p.name_pending = true
          · exact absurd (hI p hcp hp).2 (by simp [hltp])
          · simpa using hp
        dsimp only
        rcases hsc : lifetapScanGo (parseDigits ds)
            ({p with lifetap_pending := false}).pet_spell.pet_stats_list
            {p with lifetap_pending := false} [] with ⟨p2, ns⟩
        have H := lifetapScanGo_ok (parseDigits ds)
          ({p with lifetap_pending := false}).pet_spell.pet_stats_list
          {p with lifetap_pending := false} [] hpend pendFree_nil
        rw [hsc] at H
        rw [hsc]
        constructor
        · intro q hq hqp
          simp at hq
          subst hq
          rw [H.1] at hqp
          simp at hqp
        · exact H.2
    · exact ⟨hI, pendFree_nil⟩

theorem stepSmile_ok (st : Tracker) (tr : List Char)
    (hn : matchLitCI "None".data tr = none) (hI : TrackerInv st) :
    TrackerInv (stepSmile st tr).1 ∧ pendFree (stepSmile st tr).2 := by
  unfold stepSmile
  split
  · exact ⟨hI, pendFree_nil⟩
  · rename_i p hcp
    split
    · exact ⟨hI, pendFree_nil⟩
    · rename_i t hm
      have hpend : p.name_pending = false := by
        by_cases hp : p.name_pending = true
        · exfalso
          have hname := (hI p hcp hp).1
          rw [hname] at hm
          unfold beamsMatch at hm
          simp only [showOptName] at hm
          rw [matchLitCI_append_none " beams a smile at ".data hn] at hm
          simp at hm
        · simpa using hp
      constructor
      · intro q hq hqp
        simp at hq
        subst hq
        simp [hpend] at hqp
      · exact pendFree_nil

theorem meleeScanGo_pending (dmg : Nat) :
    ∀ (l : List PetStats) (q : Pet), (meleeScanGo dmg l q).name_pending = q.name_pending := by
  intro l
  induction l with
  | nil => intro q; rfl
  | cons ps rest ih =>
    intro q
    unfold meleeScanGo
    split
    · exact ih _
    · exact ih q

theorem stepMelee_ok (st : Tracker) (tr : List Char)
    (hn : matchLitCI "None".data tr = none) (hI : TrackerInv st) :
    TrackerInv (stepMelee st tr).1 ∧ pendFree (stepMelee st tr).2 := by
  unfold stepMelee
  split
  · exact ⟨hI, pendFree_nil⟩
  · rename_i p hcp
    split
    · exact ⟨hI, pendFree_nil⟩
    · rename_i pr t ds hm
      have hpend : p.name_pending = false := by
        by_cases hp : p.name_pending = true
        · exfalso
          have hname := (hI p hcp hp).1
          rw [hname] at hm
          unfold meleeMatch at hm
          simp only [showOptName] at hm
          rw [matchLitCI_append_none [' '] hn] at hm
          simp at hm
        · simpa using hp
      dsimp only
      split
      · constructor
        · intro q hq hqp
          simp at hq
          subst hq
          split at hqp <;> simp [meleeScanGo_pending, hpend] at hqp
        · intro q hq
          simp at hq
          subst hq
          split <;> simp [meleeScanGo_pending, hpend]
      · exact ⟨hI, pendFree_nil⟩

theorem stepReset_ok (st : Tracker) (tr : List Char) (hI : TrackerInv st) :
    TrackerInv (stepReset st tr).1 ∧ pendFree (stepReset st tr).2 := by
  unfold stepReset
  dsimp only
  split
  · split
    · split
      · constructor
        · exact hI
        · intro q hq
          simp at hq
      · constructor
        · intro q hq hqp
          simp at hq
          subst hq
          simp at hqp
        · intro q hq
          simp at hq
    · constructor
      · intro q hq hqp
        simp at hq
        subst hq
        simp at hqp
      · intro q hq
        simp at hq
        subst hq
        rfl
  · exact ⟨hI, pendFree_nil⟩

theorem petStepT_ok (st : Tracker) (tr : List Char)
    (hn : matchLitCI "None".data tr = none) (hI : TrackerInv st) :
    TrackerInv (petStepT st tr).1 ∧ pendFree (petStepT st tr).2 := by
  unfold petStepT
  rcases h1 : stepLost st tr with ⟨s1, n1⟩
  have H1 := stepLost_ok st tr hI
  rw [h1] at H1
  rcases h2 : stepCast s1 tr with ⟨s2, n2⟩
  have H2 := stepCast_ok s1 tr H1.1
  rw [h2] at H2
  rcases h3 : stepName s2 tr with ⟨s3, n3⟩
  have H3 := stepName_ok s2 tr H2.1
  rw [h3] at H3
  rcases h4 : stepLifetap s3 tr with ⟨s4, n4⟩
  have H4 := stepLifetap_ok s3 tr H3.1
  rw [h4] at H4
  rcases h5 : stepSmile s4 tr with ⟨s5, n5⟩
  have H5 := stepSmile_ok s4 tr hn H4.1
  rw [h5] at H5
  rcases h6 : stepMelee s5 tr with ⟨s6, n6⟩
  have H6 := stepMelee_ok s5 tr hn H5.1
  rw [h6] at H6
  rcases h7 : stepReset s6 tr with ⟨s7, n7⟩
  have H7 := stepReset_ok s6 tr H6.1
  rw [h7] at H7
  simp only [h1, h2, h3, h4, h5, h6, h7]
  exact ⟨H7.1, pendFree_append (pendFree_append (pendFree_append (pendFree_append
    (pendFree_append (pendFree_append H1.2 H2.2) H3.2) H4.2) H5.2) H6.2) H7.2⟩

theorem petRun_ok (lines : List (List Char)) :
    ∀ st : Tracker, TrackerInv st →
      (∀ l ∈ lines, matchLitCI "None".data (l.drop 27) = none) →
      TrackerInv (petRun st lines).1 ∧ pendFree (petRun st lines).2 := by
  induction lines with
  | nil => intro st hI _; exact ⟨hI, pendFree_nil⟩
  | cons l ls ih =>
    intro st hI hn
    unfold petRun petStep
    rcases h1 : petStepT st (l.drop 27) with ⟨st', ns⟩
    have H1 := petStepT_ok st (l.drop 27) (hn l (by simp)) hI
    rw [h1] at H1
    rcases h2 : petRun st' ls with ⟨st'', ns'⟩
    have H2 := ih st' H1.1 (fun x hx => hn x (List.mem_cons_of_mem l hx))
    rw [h2] at H2
    simp only [h1, h2]
    exact ⟨H2.1, pendFree_append H1.2 H2.2⟩

/-- Claim C8 (amended): over every sequence of processed lines in which no
line's post-timestamp remainder begins (case-insensitively) with `None`,
no pet object with `name_pending = true` is ever pushed to the notification
surface — neither the lifetap-signature path nor the melee-signature path
announces rank/level before the name is recorded.  (The restriction is
forced: the un-named pet's patterns embed Python's `str(None)`, see the
counterexample.) -/
theorem no_pending_announcement (lines : List (List Char))
    (hn : ∀ l ∈ lines, matchLitCI "None".data (l.drop 27) = none) :
    ∀ p, Notif.pet p ∈ (petRun trackerInit lines).2 → p.name_pending = false := by
  have hI : TrackerInv trackerInit := by
    intro p hp
    simp [trackerInit] at hp
  exact (petRun_ok lines trackerInit hI hn).2

/-- The two-line run that defeats the original claim C8. -/
def castLine : List Char := eqTs0 ++ "You begin casting Invoke Death.".data

def noneHitsLine : List Char := eqTs0 ++ "None hits a bear for 51 points of damage.".data

/-- The pet object announced on the melee path while its name is pending. -/
def pendingAnnounced : Pet := ⟨none, true, false, invokeDeathSpell, 51, 3, 39⟩

/-- Counterexample to claim C8 as stated: after casting a known pet spell
(name still pending), the line `None hits a bear for 51 points of damage.`
matches the melee pattern (whose leading literal is the formatted
`str(None)`), and the tracker sends a rank/level announcement — the pet
object with `name_pending = true` and the melee-identification message. -/
theorem pending_announcement_counterexample :
    Notif.pet pendingAnnounced ∈ (petRun trackerInit [castLine, noneHitsLine]).2 ∧
      Notif.text "*Identified via max melee damage*".data ∈
        (petRun trackerInit [castLine, noneHitsLine]).2 ∧
      pendingAnnounced.name_pending = true := by
  refine ⟨?_, ?_, rfl⟩ <;> decide

/-- Witness for the amended C8 on a concrete line sequence. -/
theorem no_pending_announcement_witness :
    (∀ l ∈ [castLine], matchLitCI "None".data (l.drop 27) = none) ∧
      ∀ p, Notif.pet p ∈ (petRun trackerInit [castLine]).2 → p.name_pending = false :=
  ⟨by decide, no_pending_announcement [castLine] (by decide)⟩
